import Mathlib

/-!
Verification of the Pincer worker boundary (manifest-driven egress proxy).

This file gives a shallow embedding, in Lean 4, of the parts of the Pincer
source relevant to the frozen claims: the shared crypto-comparison and
signed-request helpers (packages/pincer-shared-types, auth module), the
adapter-manifest validator and stable stringify (manifest module), the
adapter registry apply operation (worker adapters/index module), the secret
vault resolver (worker vault module), the rate limiter, the egress proxy,
the pairing connect handler, and the admin session store.

Modelling conventions:
  - JavaScript strings are modelled by Lean String (sequences of Unicode
    scalar values); TextEncoder is modelled by an explicit UTF-8 encoder.
  - KV values are stored structurally (a sum type) rather than as JSON
    text; JSON serialize/parse round-trips are the identity in the model.
  - Cryptographic hash functions (SHA-256, HMAC) are opaque parameters of
    the functions that use them; AES-GCM vault records store the plaintext
    they decrypt to.
  - Stateful KV code is modelled by explicit state passing; each operation
    returns the ordered list of KV write operations it performs.
-/

namespace Pincer

/-! ### UTF-8 encoding (model of TextEncoder.encode) -/

/-- Encode one Unicode scalar value to its UTF-8 bytes. -/
def utf8EncodeChar (c : Char) : List Nat :=
  if c.toNat < 128 then [c.toNat]
  else if c.toNat < 2048 then [192 + c.toNat / 64, 128 + c.toNat % 64]
  else if c.toNat < 65536 then
    [224 + c.toNat / 4096, 128 + (c.toNat / 64) % 64, 128 + c.toNat % 64]
  else
    [240 + c.toNat / 262144, 128 + (c.toNat / 4096) % 64, 128 + (c.toNat / 64) % 64,
     128 + c.toNat % 64]

/-- Encode a string (list of scalar values) to its UTF-8 byte sequence. -/
def utf8Encode (s : List Char) : List Nat :=
  (s.map utf8EncodeChar).flatten

/-! ### constantTimeEqual (shared-types auth module) -/

/-- Model of the comparison loop body of constantTimeEqual: starting from
    an initial mismatch accumulator (0 when the byte lengths agree, 1
    otherwise), OR in the XOR of every byte pair, reading 0 past the end
    of the shorter input. -/
def ctMismatch (a b : List Nat) : Nat :=
  (List.range (max a.length b.length)).foldl
    (fun acc i => acc ||| (a.getD i 0 ^^^ b.getD i 0))
    (if a.length = b.length then 0 else 1)

/-- Model of constantTimeEqual from the shared auth module: encode both
    strings as UTF-8 and compare byte-wise with the constant-time loop. -/
def constantTimeEqual (a b : String) : Bool :=
  ctMismatch (utf8Encode a.data) (utf8Encode b.data) == 0

/-! Lemmas about the constant-time loop. -/

/-! Injectivity of the UTF-8 encoding. -/

/-! ### JSON value model -/

/-- Model of a parsed JSON value (the values JSON.parse produces). Object
    entries keep insertion order, as JavaScript object enumeration does. -/
inductive Json where
  | null : Json
  | bool (b : Bool) : Json
  | num (q : Rat) : Json
  | str (s : String) : Json
  | arr (elems : List Json) : Json
  | obj (entries : List (String × Json)) : Json
deriving Repr

/-! ### stableStringify (shared-types manifest module) -/

/-- Comparison used to sort object keys, modelling Object.keys(value).sort(). -/
def keyLe (p q : String × Json) : Prop :=
  p.1 ≤ q.1

instance : DecidableRel keyLe := fun p q => inferInstanceAs (Decidable (p.1 ≤ q.1))

mutual

/-- Model of stableSort: recursively sort object keys alphabetically and
    preserve array order. -/
def stableSort : Json → Json
  | .null => .null
  | .bool b => .bool b
  | .num q => .num q
  | .str s => .str s
  | .arr xs => .arr (stableSortList xs)
  | .obj es => .obj (List.insertionSort keyLe (stableSortEntries es))

/-- Recurse stableSort over the elements of an array. -/
def stableSortList : List Json → List Json
  | [] => []
  | x :: xs => stableSort x :: stableSortList xs

/-- Recurse stableSort over the values of an object entry list. -/
def stableSortEntries : List (String × Json) → List (String × Json)
  | [] => []
  | (k, v) :: es => (k, stableSort v) :: stableSortEntries es

end

/-- Escape a string for JSON output (model of JSON.stringify on strings). -/
def escapeJsonString (s : String) : String :=
  s.data.foldl
    (fun acc c =>
      if c = Char.ofNat 34 then acc ++ "\\" ++ String.singleton (Char.ofNat 34)
      else if c = Char.ofNat 92 then acc ++ "\\\\"
      else acc ++ String.singleton c)
    ""

/-- Serialize a JSON number as JSON.stringify does for integral values. -/
def numToString (q : Rat) : String :=
  if q.den = 1 then toString q.num else toString q

mutual

/-- Model of JSON.stringify on an already stable-sorted value. -/
def jsonSerialize : Json → String
  | .null => "null"
  | .bool b => if b then "true" else "false"
  | .num q => numToString q
  | .str s =>
      String.singleton (Char.ofNat 34) ++ escapeJsonString s ++ String.singleton (Char.ofNat 34)
  | .arr xs => "[" ++ jsonSerializeList xs ++ "]"
  | .obj es => "\x7b" ++ jsonSerializeEntries es ++ "\x7d"

/-- Serialize array elements, comma separated. -/
def jsonSerializeList : List Json → String
  | [] => ""
  | [x] => jsonSerialize x
  | x :: xs => jsonSerialize x ++ "," ++ jsonSerializeList xs

/-- Serialize object entries, comma separated. -/
def jsonSerializeEntries : List (String × Json) → String
  | [] => ""
  | [(k, v)] =>
      String.singleton (Char.ofNat 34) ++ escapeJsonString k ++ String.singleton (Char.ofNat 34)
        ++ ":" ++ jsonSerialize v
  | (k, v) :: es =>
      String.singleton (Char.ofNat 34) ++ escapeJsonString k ++ String.singleton (Char.ofNat 34)
        ++ ":" ++ jsonSerialize v ++ "," ++ jsonSerializeEntries es

end

/-- Model of stableStringify: JSON.stringify of the stable-sorted value. -/
def stableStringify (value : Json) : String :=
  jsonSerialize (stableSort value)

/-! ### Key-reorder equivalence of JSON values (for C7) -/

/-- Well-formedness of a JSON value produced by JSON.parse: object keys are
    pairwise distinct at every depth (JavaScript objects cannot hold two
    entries with the same key). -/
inductive JsonWF : Json → Prop where
  | null : JsonWF .null
  | bool (b : Bool) : JsonWF (.bool b)
  | num (q : Rat) : JsonWF (.num q)
  | str (s : String) : JsonWF (.str s)
  | arr {xs : List Json} : (∀ x ∈ xs, JsonWF x) → JsonWF (.arr xs)
  | obj {es : List (String × Json)} :
      (es.map Prod.fst).Nodup → (∀ p ∈ es, JsonWF p.2) → JsonWF (.obj es)

mutual

/-- Two JSON values are equal up to reordering of object keys, at any
    nesting depth: arrays must agree element-wise in order, objects must
    hold the same keys with key-reorder-equal values, in any order. -/
inductive KeyReorderEquiv : Json → Json → Prop where
  | null : KeyReorderEquiv .null .null
  | bool (b : Bool) : KeyReorderEquiv (.bool b) (.bool b)
  | num (q : Rat) : KeyReorderEquiv (.num q) (.num q)
  | str (s : String) : KeyReorderEquiv (.str s) (.str s)
  | arr {xs ys : List Json} :
      KeyReorderEquivList xs ys → KeyReorderEquiv (.arr xs) (.arr ys)
  | obj {es rs qs : List (String × Json)} :
      KeyReorderEquivEntries es rs → rs.Perm qs → KeyReorderEquiv (.obj es) (.obj qs)

/-- Element-wise key-reorder equivalence of two arrays. -/
inductive KeyReorderEquivList : List Json → List Json → Prop where
  | nil : KeyReorderEquivList [] []
  | cons {x y : Json} {xs ys : List Json} :
      KeyReorderEquiv x y → KeyReorderEquivList xs ys →
      KeyReorderEquivList (x :: xs) (y :: ys)

/-- Entry-wise key-reorder equivalence of two object entry lists: same keys
    in the same positions, key-reorder-equal values. -/
inductive KeyReorderEquivEntries :
    List (String × Json) → List (String × Json) → Prop where
  | nil : KeyReorderEquivEntries [] []
  | cons {k : String} {v w : Json} {es rs : List (String × Json)} :
      KeyReorderEquiv v w → KeyReorderEquivEntries es rs →
      KeyReorderEquivEntries ((k, v) :: es) ((k, w) :: rs)

end

/-! ### String helpers (list-based models of the JavaScript string methods) -/

/-- Model of String.prototype.trim: drop leading and trailing whitespace. -/
def strTrim (s : String) : String :=
  String.mk ((s.data.dropWhile Char.isWhitespace).rdropWhile Char.isWhitespace)

/-- Model of String.prototype.toLowerCase. -/
def strToLower (s : String) : String :=
  String.mk (s.data.map Char.toLower)

/-- Model of String.prototype.toUpperCase. -/
def strToUpper (s : String) : String :=
  String.mk (s.data.map Char.toUpper)

/-- Model of String.prototype.startsWith. -/
def strStartsWith (s p : String) : Bool :=
  p.data.isPrefixOf s.data

/-- Whether a string contains a given character. -/
def strContainsChar (s : String) (c : Char) : Bool :=
  s.data.any (fun d => d = c)

/-- Drop the first n characters of a string. -/
def strDrop (s : String) (n : Nat) : String :=
  String.mk (s.data.drop n)

/-- Length of a string in characters. -/
def strLength (s : String) : Nat :=
  s.data.length

/-- First occurrence of a pattern inside a character list: returns the
    characters before the match and the characters after it. -/
def findSubstr (pat : List Char) : List Char → Option (List Char × List Char)
  | [] => if pat = [] then some ([], []) else none
  | c :: rest =>
    if pat.isPrefixOf (c :: rest) then some ([], (c :: rest).drop pat.length)
    else
      match findSubstr pat rest with
      | some (before, after) => some (c :: before, after)
      | none => none

/-! ### URL model (WHATWG URL as used by the validator and proxy) -/

/-- Parsed URL: scheme, lowercased host (with optional port), and path. -/
structure Url where
  scheme : String
  host : String
  path : String
deriving Repr, DecidableEq

/-- Character that may appear in a URL scheme. -/
def isSchemeChar (c : Char) : Bool :=
  c.isAlpha || c.isDigit || c = Char.ofNat 43 || c = Char.ofNat 45 || c = Char.ofNat 46

/-- Take the authority part of a URL remainder: everything up to the first
    slash, question mark, or number sign. -/
def takeAuthority (s : String) : String :=
  String.mk (s.data.takeWhile (fun c => c ≠ Char.ofNat 47 ∧ c ≠ Char.ofNat 63 ∧ c ≠ Char.ofNat 35))

/-- Take the path part of a URL remainder: everything up to the first
    question mark or number sign (query and fragment are dropped; they do
    not affect the scheme or host, which is all the checks below use). -/
def takePathPart (s : String) : String :=
  String.mk (s.data.takeWhile (fun c => c ≠ Char.ofNat 63 ∧ c ≠ Char.ofNat 35))

/-- Model of new URL(value) for an absolute URL: scheme://host followed by
    an optional path; the host is lowercased as WHATWG host parsing does. -/
def urlParse (value : String) : Option Url :=
  match findSubstr [Char.ofNat 58, Char.ofNat 47, Char.ofNat 47] value.data with
  | some (schemeChars, restChars) =>
    if schemeChars ≠ [] ∧ schemeChars.all isSchemeChar then
      let rest := String.mk restChars
      let host := strToLower (takeAuthority rest)
      if host = "" then none
      else
        let p := takePathPart (strDrop rest (strLength (takeAuthority rest)))
        some { scheme := strToLower (String.mk schemeChars), host := host,
               path := if p = "" then "/" else p }
    else none
  | none => none

/-- Model of new URL(path, base): an absolute URL in the first argument
    replaces the base entirely; a network-path reference (leading double
    slash) keeps the scheme but takes its own host; an absolute path keeps
    scheme and host of the base; other relative paths are resolved against
    the directory of the base path (only scheme and host matter to the
    checks below). -/
def resolveUrl (path : String) (base : Url) : Url :=
  match urlParse path with
  | some u => u
  | none =>
    if strStartsWith path "//" then
      let rest := strDrop path 2
      let host := strToLower (takeAuthority rest)
      let p := takePathPart (strDrop rest (strLength (takeAuthority rest)))
      { scheme := base.scheme, host := host, path := if p = "" then "/" else p }
    else if strStartsWith path "/" then
      { base with path := takePathPart path }
    else
      { base with path := "/" ++ takePathPart path }

/-- Serialization of a parsed URL (model of URL.toString restricted to the
    components the model tracks). -/
def urlToString (u : Url) : String :=
  u.scheme ++ "://" ++ u.host ++ u.path

/-! ### Adapter manifest data model (shared-types manifest module) -/

/-- HTTP method of a manifest action. -/
inductive HttpMethod where
  | GET : HttpMethod
  | POST : HttpMethod
deriving Repr, DecidableEq

/-- Request construction mode of a manifest action. -/
inductive RequestMode where
  | query : RequestMode
  | json : RequestMode
deriving Repr, DecidableEq

/-- Placement of the upstream credential. -/
inductive AuthPlacement where
  | header : AuthPlacement
  | query : AuthPlacement
deriving Repr, DecidableEq

/-- Scalar type of an input schema property. -/
inductive PropType where
  | string : PropType
  | integer : PropType
  | number : PropType
  | boolean : PropType
deriving Repr, DecidableEq

/-- Validated auth block of an action; prefixVal models the optional
    prefix field. -/
structure ActionAuth where
  placement : AuthPlacement
  name : String
  secretBinding : String
  prefixVal : Option String
deriving Repr

/-- Validated limits block of an action. -/
structure ActionLimits where
  maxBodyKb : Int
  timeoutMs : Int
  ratePerMinute : Int
deriving Repr

/-- Validated schema of a single input property. -/
structure AdapterInputPropertySchema where
  type : PropType
  enumVals : Option (List Json) := none
  minLength : Option Int := none
  maxLength : Option Int := none
  minimum : Option Rat := none
  maximum : Option Rat := none
deriving Repr

/-- Validated input schema of an action. -/
structure AdapterInputSchema where
  additionalProperties : Option Bool := none
  properties : Option (List (String × AdapterInputPropertySchema)) := none
  required : Option (List String) := none
deriving Repr

/-- Validated action of a manifest. -/
structure AdapterManifestAction where
  method : HttpMethod
  path : String
  requestMode : RequestMode
  auth : ActionAuth
  limits : ActionLimits
  inputSchema : AdapterInputSchema
deriving Repr

/-- Validated adapter manifest. The source stores baseUrl as the
    serialization of the parsed URL; the model keeps the parsed URL, whose
    serialization is urlToString. Record fields keep the insertion order
    the source constructs them in. -/
structure AdapterManifest where
  id : String
  revision : Int
  baseUrl : Url
  allowedHosts : List String
  requiredSecrets : List String
  actions : List (String × AdapterManifestAction)
deriving Repr

/-! ### Manifest validation (shared-types manifest module) -/

/-- Property access on a parsed JSON object; with duplicate keys the last
    entry wins, as in JSON.parse. -/
def jget (es : List (String × Json)) (k : String) : Option Json :=
  es.foldl (fun acc p => if p.1 = k then some p.2 else acc) none

/-- Result of validateAdapterManifest. -/
inductive ManifestValidationResult where
  | fail (errors : List String) : ManifestValidationResult
  | ok (manifest : AdapterManifest) : ManifestValidationResult
deriving Repr

/-- Character class of the lowercase host pattern body. -/
def isHostChar (c : Char) : Bool :=
  (97 ≤ c.toNat && c.toNat ≤ 122) || c.isDigit || c = Char.ofNat 46 || c = Char.ofNat 45

/-- Model of the host regex: one or more host characters, then an optional
    colon-separated nonempty run of digits. -/
def hostPat (s : String) : Bool :=
  let h := s.data.takeWhile (fun c => c ≠ Char.ofNat 58)
  match s.data.drop h.length with
  | [] => if h = [] then false else h.all isHostChar
  | _ :: p =>
    if h = [] ∨ p = [] then false
    else h.all isHostChar && p.all Char.isDigit

/-- Uppercase letter, digit or underscore. -/
def isUpperAlnumUnderscore (c : Char) : Bool :=
  (65 ≤ c.toNat && c.toNat ≤ 90) || c.isDigit || c = Char.ofNat 95

/-- Model of the secret binding name regex: an uppercase letter followed by
    one to 127 uppercase letters, digits or underscores. -/
def keyNamePat (s : String) : Bool :=
  match s.data with
  | [] => false
  | c :: rest =>
    (65 ≤ c.toNat && c.toNat ≤ 90) && decide (1 ≤ rest.length) && decide (rest.length ≤ 127)
      && rest.all isUpperAlnumUnderscore

/-- Lowercase letter or digit. -/
def isLowerAlnum (c : Char) : Bool :=
  (97 ≤ c.toNat && c.toNat ≤ 122) || c.isDigit

/-- Model of the action name regex: a lowercase letter or digit followed by
    one to 63 lowercase letters, digits or underscores. -/
def actionNamePat (s : String) : Bool :=
  match s.data with
  | [] => false
  | c :: rest =>
    isLowerAlnum c && decide (1 ≤ rest.length) && decide (rest.length ≤ 63)
      && rest.all (fun d => isLowerAlnum d || d = Char.ofNat 95)

/-- Model of the adapter id regex: a lowercase letter or digit followed by
    one to 63 lowercase letters, digits, underscores or dashes. -/
def idPat (s : String) : Bool :=
  match s.data with
  | [] => false
  | c :: rest =>
    isLowerAlnum c && decide (1 ≤ rest.length) && decide (rest.length ≤ 63)
      && rest.all (fun d => isLowerAlnum d || d = Char.ofNat 95 || d = Char.ofNat 45)

/-- Model of the input property name regex: a letter or underscore followed
    by up to 63 letters, digits or underscores. -/
def propNamePat (s : String) : Bool :=
  match s.data with
  | [] => false
  | c :: rest =>
    (c.isAlpha || c = Char.ofNat 95) && decide (rest.length ≤ 63)
      && rest.all (fun d => d.isAlpha || d.isDigit || d = Char.ofNat 95)

/-- Model of parsePositiveInt: the value must be a JSON number that is a
    positive integer; returns 0 as sentinel on failure. -/
def parsePositiveInt (value : Option Json) (field : String) : List String × Int :=
  match value with
  | some (.num q) =>
    if q.den = 1 ∧ 0 < q.num then ([], q.num)
    else ([field ++ ": must be a positive integer"], 0)
  | _ => ([field ++ ": must be a positive integer"], 0)

/-- Model of parseUrl: the value must be a nonempty string parsing as an
    https URL. -/
def parseUrlField (value : Option Json) (field : String) : List String × Option Url :=
  match value with
  | some (.str s) =>
    if strLength (strTrim s) = 0 then ([field ++ ": must be a non-empty string"], none)
    else
      match urlParse s with
      | none => ([field ++ ": must be a valid URL"], none)
      | some u =>
        if u.scheme = "https" then ([], some u)
        else ([field ++ ": only https URLs are allowed"], none)
  | _ => ([field ++ ": must be a non-empty string"], none)

/-- Model of validateHost: trim, lowercase, reject wildcards and malformed
    hosts; returns the empty string as sentinel on failure. -/
def validateHostField (value : Option Json) (field : String) : List String × String :=
  match value with
  | some (.str s) =>
    if strLength (strTrim s) = 0 then ([field ++ ": must be a non-empty string"], "")
    else
      let normalized := strToLower (strTrim s)
      if strContainsChar normalized (Char.ofNat 42) then
        ([field ++ ": wildcard hosts are not allowed"], "")
      else if hostPat normalized then ([], normalized)
      else ([field ++ ": invalid host format"], "")
  | _ => ([field ++ ": must be a non-empty string"], "")

/-- Model of validateKeyName: trim and match the binding name pattern;
    returns the empty string as sentinel on failure. -/
def validateKeyNameField (value : Option Json) (field : String) : List String × String :=
  match value with
  | some (.str s) =>
    if strLength (strTrim s) = 0 then ([field ++ ": must be a non-empty string"], "")
    else
      let normalized := strTrim s
      if keyNamePat normalized then ([], normalized)
      else ([field ++ ": must match the binding name pattern"], "")
  | _ => ([field ++ ": must be a non-empty string"], "")

/-- Model of validateInputPropertySchema: a property schema must name one
    of the four scalar types; enum and per-type bounds are validated and
    collected, pushing errors while keeping the schema. -/
def validateInputPropertySchema (raw : Json) (field : String) :
    List String × Option AdapterInputPropertySchema :=
  match raw with
  | .obj fields =>
    let tyOpt :=
      match jget fields "type" with
      | some (.str "string") => some PropType.string
      | some (.str "integer") => some PropType.integer
      | some (.str "number") => some PropType.number
      | some (.str "boolean") => some PropType.boolean
      | _ => none
    match tyOpt with
    | none => ([field ++ ".type: must be string|integer|number|boolean"], none)
    | some ty =>
      let enumStep : List String × Option (List Json) :=
        match jget fields "enum" with
        | none => ([], none)
        | some (.arr l) =>
          match l with
          | [] => ([field ++ ".enum: must be a non-empty array"], none)
          | _ => ([], some l)
        | some _ => ([field ++ ".enum: must be a non-empty array"], none)
      let minLenStep : List String × Option Int :=
        if ty = PropType.string then
          match jget fields "minLength" with
          | none => ([], none)
          | some (.num q) =>
            if q.den = 1 ∧ 0 ≤ q.num then ([], some q.num)
            else ([field ++ ".minLength: must be an integer >= 0"], none)
          | some _ => ([field ++ ".minLength: must be an integer >= 0"], none)
        else ([], none)
      let maxLenStep : List String × Option Int :=
        if ty = PropType.string then
          match jget fields "maxLength" with
          | none => ([], none)
          | some (.num q) =>
            if q.den = 1 ∧ 0 ≤ q.num then ([], some q.num)
            else ([field ++ ".maxLength: must be an integer >= 0"], none)
          | some _ => ([field ++ ".maxLength: must be an integer >= 0"], none)
        else ([], none)
      let crossLen : List String :=
        match minLenStep.2, maxLenStep.2 with
        | some mn, some mx =>
          if mx < mn then [field ++ ": maxLength must be >= minLength"] else []
        | _, _ => []
      let minStep : List String × Option Rat :=
        if ty = PropType.integer ∨ ty = PropType.number then
          match jget fields "minimum" with
          | none => ([], none)
          | some (.num q) => ([], some q)
          | some _ => ([field ++ ".minimum: must be a finite number"], none)
        else ([], none)
      let maxStep : List String × Option Rat :=
        if ty = PropType.integer ∨ ty = PropType.number then
          match jget fields "maximum" with
          | none => ([], none)
          | some (.num q) => ([], some q)
          | some _ => ([field ++ ".maximum: must be a finite number"], none)
        else ([], none)
      let crossNum : List String :=
        match minStep.2, maxStep.2 with
        | some mn, some mx =>
          if mx < mn then [field ++ ": maximum must be >= minimum"] else []
        | _, _ => []
      (enumStep.1 ++ minLenStep.1 ++ maxLenStep.1 ++ crossLen ++ minStep.1 ++ maxStep.1
         ++ crossNum,
       some { type := ty, enumVals := enumStep.2, minLength := minLenStep.2,
              maxLength := maxLenStep.2, minimum := minStep.2, maximum := maxStep.2 })
  | _ => ([field ++ ": must be an object"], none)

/-- Fold of the properties object of an input schema: invalid property
    names are reported and skipped, property schemas are validated and the
    valid ones collected in order. -/
def propsStep (field : String) :
    List (String × Json) → List String × List (String × AdapterInputPropertySchema)
  | [] => ([], [])
  | (propName, propSchemaRaw) :: rest =>
    if propNamePat propName then
      let r := validateInputPropertySchema propSchemaRaw (field ++ ".properties." ++ propName)
      let next := propsStep field rest
      match r.2 with
      | some sc => (r.1 ++ next.1, (propName, sc) :: next.2)
      | none => (r.1 ++ next.1, next.2)
    else
      let next := propsStep field rest
      ((field ++ ".properties." ++ propName ++ ": invalid property name") :: next.1, next.2)

/-- Fold of the required array of an input schema: non-string or empty
    entries are reported, duplicates are dropped, order is preserved. -/
def requiredStep (field : String) :
    List Json → Nat → List String → List String × List String
  | [], _, _ => ([], [])
  | it :: rest, idx, seen =>
    match it with
    | .str s =>
      if strLength s = 0 then
        let next := requiredStep field rest (idx + 1) seen
        ((field ++ ".required[" ++ toString idx ++ "]: must be a non-empty string") :: next.1,
         next.2)
      else if s ∈ seen then requiredStep field rest (idx + 1) seen
      else
        let next := requiredStep field rest (idx + 1) (seen ++ [s])
        (next.1, s :: next.2)
    | _ =>
      let next := requiredStep field rest (idx + 1) seen
      ((field ++ ".required[" ++ toString idx ++ "]: must be a non-empty string") :: next.1,
       next.2)

/-- Model of validateInputSchema: an object with type exactly the string
    object, optional boolean additionalProperties, optional properties
    object and optional required array. -/
def validateInputSchema (raw : Option Json) (field : String) :
    List String × Option AdapterInputSchema :=
  match raw with
  | some (.obj fields) =>
    match jget fields "type" with
    | some (.str "object") =>
      let addStep : List String × Option Bool :=
        match jget fields "additionalProperties" with
        | none => ([], none)
        | some (.bool b) => ([], some b)
        | some _ => ([field ++ ".additionalProperties: must be boolean"], none)
      let properties : List String × Option (List (String × AdapterInputPropertySchema)) :=
        match jget fields "properties" with
        | none => ([], none)
        | some (.obj propFields) =>
          let r := propsStep field propFields
          (r.1, some r.2)
        | some _ => ([field ++ ".properties: must be an object"], none)
      let requiredPart : List String × Option (List String) :=
        match jget fields "required" with
        | none => ([], none)
        | some (.arr items) =>
          let r := requiredStep field items 0 []
          (r.1, some r.2)
        | some _ => ([field ++ ".required: must be an array"], none)
      (addStep.1 ++ properties.1 ++ requiredPart.1,
       some { additionalProperties := addStep.2, properties := properties.2,
              required := requiredPart.2 })
    | _ => ([field ++ ".type: must be the string object"], none)
  | some _ => ([field ++ ": must be an object"], none)
  | none => ([field ++ ": must be an object"], none)

/-- Model of validateAction: validates method, path, requestMode, auth,
    limits and inputSchema, returning the action only when every component
    was built. -/
def validateAction (raw : Json) (field : String) :
    List String × Option AdapterManifestAction :=
  match raw with
  | .obj fields =>
    let methodStep : List String × Option HttpMethod :=
      match jget fields "method" with
      | some (.str "GET") => ([], some HttpMethod.GET)
      | some (.str "POST") => ([], some HttpMethod.POST)
      | _ => ([field ++ ".method: must be GET or POST"], none)
    let pathStep : List String × Option String :=
      match jget fields "path" with
      | some (.str s) =>
        if strStartsWith s "/" then ([], some s)
        else ([field ++ ".path: must be an absolute path"], some s)
      | _ => ([field ++ ".path: must be an absolute path"], none)
    let modeStep : List String × Option RequestMode :=
      match jget fields "requestMode" with
      | some (.str "query") => ([], some RequestMode.query)
      | some (.str "json") => ([], some RequestMode.json)
      | _ => ([field ++ ".requestMode: must be query or json"], none)
    let authStep : List String × Option ActionAuth :=
      match jget fields "auth" with
      | some (.obj authFields) =>
        let placementStep : List String × Option AuthPlacement :=
          match jget authFields "placement" with
          | some (.str "header") => ([], some AuthPlacement.header)
          | some (.str "query") => ([], some AuthPlacement.query)
          | _ => ([field ++ ".auth.placement: must be header or query"], none)
        let nameStep : List String × Option String :=
          match jget authFields "name" with
          | some (.str s) =>
            if strLength (strTrim s) = 0 then
              ([field ++ ".auth.name: must be a non-empty string"], some s)
            else ([], some s)
          | _ => ([field ++ ".auth.name: must be a non-empty string"], none)
        let sbStep := validateKeyNameField (jget authFields "secretBinding")
          (field ++ ".auth.secretBinding")
        let prefixStep : List String × Option String :=
          match jget authFields "prefix" with
          | none => ([], none)
          | some (.str s) => ([], some s)
          | some _ => ([field ++ ".auth.prefix: must be a string"], none)
        let authVal : Option ActionAuth :=
          match placementStep.2, nameStep.2 with
          | some pl, some n =>
            if sbStep.2 = "" then none
            else some { placement := pl, name := n, secretBinding := sbStep.2,
                        prefixVal := prefixStep.2 }
          | _, _ => none
        (placementStep.1 ++ nameStep.1 ++ sbStep.1 ++ prefixStep.1, authVal)
      | _ => ([field ++ ".auth: must be an object"], none)
    let limitsStep : List String × Option ActionLimits :=
      match jget fields "limits" with
      | some (.obj limFields) =>
        let kb := parsePositiveInt (jget limFields "maxBodyKb") (field ++ ".limits.maxBodyKb")
        let tm := parsePositiveInt (jget limFields "timeoutMs") (field ++ ".limits.timeoutMs")
        let rpm := parsePositiveInt (jget limFields "ratePerMinute")
          (field ++ ".limits.ratePerMinute")
        let eKb := if kb.2 > 0 ∧ kb.2 > 1024 then [field ++ ".limits.maxBodyKb: must be <= 1024"]
          else []
        let eTm := if tm.2 > 0 ∧ tm.2 > 120000 then
          [field ++ ".limits.timeoutMs: must be <= 120000"] else []
        let eRpm := if rpm.2 > 0 ∧ rpm.2 > 100000 then
          [field ++ ".limits.ratePerMinute: must be <= 100000"] else []
        let lim : Option ActionLimits :=
          if kb.2 > 0 ∧ tm.2 > 0 ∧ rpm.2 > 0 then
            some { maxBodyKb := kb.2, timeoutMs := tm.2, ratePerMinute := rpm.2 }
          else none
        (kb.1 ++ tm.1 ++ rpm.1 ++ eKb ++ eTm ++ eRpm, lim)
      | _ => ([field ++ ".limits: must be an object"], none)
    let schemaStep := validateInputSchema (jget fields "inputSchema") (field ++ ".inputSchema")
    let result : Option AdapterManifestAction :=
      match methodStep.2, pathStep.2, modeStep.2, authStep.2, limitsStep.2, schemaStep.2 with
      | some m, some p, some rm, some a, some l, some sc =>
        some { method := m, path := p, requestMode := rm, auth := a, limits := l,
               inputSchema := sc }
      | _, _, _, _, _, _ => none
    (methodStep.1 ++ pathStep.1 ++ modeStep.1 ++ authStep.1 ++ limitsStep.1 ++ schemaStep.1,
     result)
  | _ => ([field ++ ": must be an object"], none)

/-- Model of the manifest id validation: trim, require nonempty, check the
    id pattern; the trimmed id is kept even when the pattern fails. -/
def validateId (fields : List (String × Json)) : List String × String :=
  match jget fields "id" with
  | some (.str s) =>
    if strLength (strTrim s) = 0 then (["manifest.id: must be a non-empty string"], "")
    else if idPat (strTrim s) then ([], strTrim s)
    else (["manifest.id: must match the adapter id pattern"], strTrim s)
  | _ => (["manifest.id: must be a non-empty string"], "")

/-- Fold of the allowedHosts array: each entry is validated as a host;
    failures and duplicates are skipped, order is preserved. -/
def hostsStep : List Json → Nat → List String → List String × List String
  | [], _, _ => ([], [])
  | it :: rest, idx, seen =>
    let r := validateHostField (some it) ("manifest.allowedHosts[" ++ toString idx ++ "]")
    if r.2 = "" ∨ r.2 ∈ seen then
      let next := hostsStep rest (idx + 1) seen
      (r.1 ++ next.1, next.2)
    else
      let next := hostsStep rest (idx + 1) (seen ++ [r.2])
      (r.1 ++ next.1, r.2 :: next.2)

/-- Model of the allowedHosts validation: a nonempty array of hosts. -/
def validateAllowedHosts (fields : List (String × Json)) : List String × List String :=
  match jget fields "allowedHosts" with
  | some (.arr items) =>
    match items with
    | [] => (["manifest.allowedHosts: must be a non-empty array"], [])
    | _ => hostsStep items 0 []
  | _ => (["manifest.allowedHosts: must be a non-empty array"], [])

/-- Fold of the requiredSecrets array: each entry is validated as a binding
    name; failures and duplicates are skipped, order is preserved. -/
def secretsStep : List Json → Nat → List String → List String × List String
  | [], _, _ => ([], [])
  | it :: rest, idx, seen =>
    let r := validateKeyNameField (some it) ("manifest.requiredSecrets[" ++ toString idx ++ "]")
    if r.2 = "" ∨ r.2 ∈ seen then
      let next := secretsStep rest (idx + 1) seen
      (r.1 ++ next.1, next.2)
    else
      let next := secretsStep rest (idx + 1) (seen ++ [r.2])
      (r.1 ++ next.1, r.2 :: next.2)

/-- Model of the requiredSecrets validation: an array (possibly empty) of
    binding names. -/
def validateRequiredSecrets (fields : List (String × Json)) : List String × List String :=
  match jget fields "requiredSecrets" with
  | some (.arr items) => secretsStep items 0 []
  | _ => (["manifest.requiredSecrets: must be an array"], [])

/-- Fold of the actions object: names failing the action name pattern are
    reported and skipped; each value is validated as an action. -/
def actionsStep : List (String × Json) → List String × List (String × AdapterManifestAction)
  | [] => ([], [])
  | (nameRaw, actionRaw) :: rest =>
    if actionNamePat nameRaw then
      let r := validateAction actionRaw ("manifest.actions." ++ nameRaw)
      let next := actionsStep rest
      match r.2 with
      | some a => (r.1 ++ next.1, (nameRaw, a) :: next.2)
      | none => (r.1 ++ next.1, next.2)
    else
      let next := actionsStep rest
      (("manifest.actions." ++ nameRaw ++ ": must match the action name pattern") :: next.1,
       next.2)

/-- Model of the actions validation: a nonempty object of named actions. -/
def validateActions (fields : List (String × Json)) :
    List String × List (String × AdapterManifestAction) :=
  match jget fields "actions" with
  | some (.obj entries) =>
    match entries with
    | [] => (["manifest.actions: must be a non-empty object"], [])
    | _ => actionsStep entries
  | _ => (["manifest.actions: must be a non-empty object"], [])

/-- Per-action cross checks of the final validation loop: the auth secret
    binding must be a declared required secret, and the action path
    resolved against the base URL must be https on an allowed host. -/
def actionFinalErrors (requiredSecrets allowedHosts : List String) (baseUrl : Option Url)
    (p : String × AdapterManifestAction) : List String :=
  (if p.2.auth.secretBinding ∈ requiredSecrets then []
   else ["manifest.actions." ++ p.1 ++ ".auth.secretBinding: must be listed in requiredSecrets"])
    ++
  (match baseUrl with
   | some u =>
     let resolved := resolveUrl p.2.path u
     (if resolved.scheme = "https" then []
      else ["manifest.actions." ++ p.1 ++ ".path: resolved URL must be https"]) ++
     (if strToLower resolved.host ∈ allowedHosts then []
      else ["manifest.actions." ++ p.1 ++ ".path: resolved host not in allowedHosts"])
   | none => [])

/-- Model of validateAdapterManifest: validate every field, collect errors
    in source order, and accept exactly when no error was produced and the
    base URL parsed. -/
def validateAdapterManifest (raw : Option Json) : ManifestValidationResult :=
  match raw with
  | some (.obj fields) =>
    let idStep := validateId fields
    let revStep := parsePositiveInt (jget fields "revision") "manifest.revision"
    let baseStep := parseUrlField (jget fields "baseUrl") "manifest.baseUrl"
    let hostsPart := validateAllowedHosts fields
    let eBaseHost : List String :=
      match baseStep.2 with
      | some u =>
        if hostsPart.2 ≠ [] ∧ strToLower u.host ∉ hostsPart.2 then
          ["manifest.allowedHosts: must include baseUrl host"]
        else []
      | none => []
    let secretsPart := validateRequiredSecrets fields
    let actionsPart := validateActions fields
    let eFinal :=
      (actionsPart.2.map (actionFinalErrors secretsPart.2 hostsPart.2 baseStep.2)).flatten
    let errors := idStep.1 ++ revStep.1 ++ baseStep.1 ++ hostsPart.1 ++ eBaseHost
      ++ secretsPart.1 ++ actionsPart.1 ++ eFinal
    match baseStep.2 with
    | some u =>
      if errors = [] then
        .ok { id := idStep.2, revision := revStep.2, baseUrl := u,
              allowedHosts := hostsPart.2, requiredSecrets := secretsPart.2,
              actions := actionsPart.2 }
      else .fail errors
    | none => .fail errors
  | _ => .fail ["manifest: must be a JSON object"]

/-! ### Seed manifest (the YouTube example of the specification) -/

/-- Raw JSON of the seed YouTube manifest. -/
def seedManifestJson : Json :=
  .obj [
    ("id", .str "youtube"),
    ("revision", .num 1),
    ("baseUrl", .str "https://youtube.googleapis.com"),
    ("allowedHosts", .arr [.str "youtube.googleapis.com"]),
    ("requiredSecrets", .arr [.str "YOUTUBE_API_KEY"]),
    ("actions", .obj [
      ("list_channel_videos", .obj [
        ("method", .str "GET"),
        ("path", .str "/youtube/v3/search"),
        ("requestMode", .str "query"),
        ("auth", .obj [
          ("placement", .str "query"),
          ("name", .str "key"),
          ("secretBinding", .str "YOUTUBE_API_KEY")]),
        ("limits", .obj [
          ("maxBodyKb", .num 8),
          ("timeoutMs", .num 10000),
          ("ratePerMinute", .num 90)]),
        ("inputSchema", .obj [
          ("type", .str "object"),
          ("required", .arr [.str "channelId"]),
          ("additionalProperties", .bool false),
          ("properties", .obj [
            ("channelId", .obj [
              ("type", .str "string"),
              ("minLength", .num 1),
              ("maxLength", .num 128)]),
            ("maxResults", .obj [
              ("type", .str "integer"),
              ("minimum", .num 1),
              ("maximum", .num 50)])])])])])]

/-- The validated action the seed manifest produces. -/
def seedAction : AdapterManifestAction :=
  AdapterManifestAction.mk HttpMethod.GET "/youtube/v3/search" RequestMode.query
    (ActionAuth.mk AuthPlacement.query "key" "YOUTUBE_API_KEY" none)
    (ActionLimits.mk 8 10000 90)
    (AdapterInputSchema.mk (some false)
      (some [("channelId",
               AdapterInputPropertySchema.mk PropType.string none (some 1) (some 128) none none),
             ("maxResults",
               AdapterInputPropertySchema.mk PropType.integer none none none (some 1) (some 50))])
      (some ["channelId"]))

/-- The validated manifest the seed JSON produces. -/
def seedManifest : AdapterManifest :=
  { id := "youtube", revision := 1,
    baseUrl := { scheme := "https", host := "youtube.googleapis.com", path := "/" },
    allowedHosts := ["youtube.googleapis.com"],
    requiredSecrets := ["YOUTUBE_API_KEY"],
    actions := [("list_channel_videos", seedAction)] }

/-! ### KV store and worker environment model -/

/-- Summary of a pending proposal as stored in the registry index. -/
structure ProposalSummary where
  proposalId : String
  adapterId : String
  revision : Int
  submittedAt : String
  submittedBy : String
deriving Repr, DecidableEq

/-- Entry of the active map of the registry index. -/
structure ActiveEntry where
  adapterId : String
  revision : Int
  enabled : Bool
  updatedAt : String
deriving Repr, DecidableEq

/-- The adapter registry index singleton. -/
structure AdapterRegistryIndex where
  proposals : List ProposalSummary
  active : List (String × ActiveEntry)
deriving Repr

/-- A stored proposal record. -/
structure AdapterProposalRecord where
  proposalId : String
  adapterId : String
  revision : Int
  submittedAt : String
  submittedBy : String
  manifest : AdapterManifest
deriving Repr

/-- A proposal audit event. -/
structure ProposalAuditEvent where
  eventId : String
  eventType : String
  occurredAt : String
  proposalId : String
  adapterId : String
  revision : Int
  actor : String
  reason : Option String
  manifest : AdapterManifest
deriving Repr

/-- A stored pairing record. -/
structure PairingRecord where
  workerUrl : String
  runtimeKey : String
  hmacSecret : String
deriving Repr, DecidableEq

/-- The runtime key record, with the effective skew already resolved (the
    source applies the env override and the 60-second default when parsing
    the record). -/
structure RuntimeKeyRecord where
  id : String
  keyHash : String
  hmacSecretBinding : String
  keySecretBinding : String
  skewSeconds : Int
deriving Repr

/-- An admin session record. Timestamps are modelled as epoch milliseconds,
    the value Date.parse gives for the stored ISO strings. -/
structure AdminSessionRecord where
  sessionId : String
  username : String
  csrfToken : String
  createdAt : Int
  updatedAt : Int
  lastSeenAt : Int
  rotatedAt : Int
  expiresAt : Int
  idleExpiresAt : Int
deriving Repr

/-- A KV value, stored structurally: parse of a well-formed serialization
    is the identity, and raw marks a blob that fails to parse as anything. -/
inductive KvVal where
  | manifest (m : AdapterManifest) : KvVal
  | index (i : AdapterRegistryIndex) : KvVal
  | proposal (p : AdapterProposalRecord) : KvVal
  | audit (e : ProposalAuditEvent) : KvVal
  | vaultSecret (plaintext : String) : KvVal
  | pairing (r : PairingRecord) : KvVal
  | runtime (r : RuntimeKeyRecord) : KvVal
  | session (s : AdminSessionRecord) : KvVal
  | raw (s : String) : KvVal
deriving Repr

/-- The KV namespace: an association list, first match wins. -/
abbrev KvStore := List (String × KvVal)

/-- Read a key. -/
def kvGet (store : KvStore) (k : String) : Option KvVal :=
  match store with
  | [] => none
  | (k2, v) :: rest => if k2 = k then some v else kvGet rest k

/-- A KV write operation, recorded in the order the code performs it. -/
inductive KvOp where
  | put (key : String) (value : KvVal) : KvOp
  | delete (key : String) : KvOp
deriving Repr

/-- Remove every entry stored under a key. -/
def kvErase (store : KvStore) (k : String) : KvStore :=
  match store with
  | [] => []
  | (k2, v) :: rest => if k2 = k then kvErase rest k else (k2, v) :: kvErase rest k

/-- Apply one write operation to a store. -/
def applyOp (store : KvStore) : KvOp → KvStore
  | .put k v => (k, v) :: kvErase store k
  | .delete k => kvErase store k

/-- Apply a list of write operations, left to right. -/
def applyOps (store : KvStore) (ops : List KvOp) : KvStore :=
  ops.foldl applyOp store

/-- Lookup in a string-valued association list, first match wins. -/
def lookupStr (l : List (String × String)) (k : String) : Option String :=
  match l with
  | [] => none
  | (k2, v) :: rest => if k2 = k then some v else lookupStr rest k

/-- The worker environment: the KV binding plus the string-valued env
    bindings (Worker secrets and vars reachable as env properties). -/
structure WorkerEnv where
  kv : KvStore
  vars : List (String × String)
deriving Repr

/-! ### Secret vault (worker vault module) and env bindings -/

/-- Character allowed in a vault binding name. -/
def isBindingChar (c : Char) : Bool :=
  c.isAlpha || c.isDigit || c = Char.ofNat 95

/-- Model of the binding name regex: 1 to 128 letters, digits or
    underscores. -/
def bindingNamePat (s : String) : Bool :=
  decide (1 ≤ s.data.length) && decide (s.data.length ≤ 128) && s.data.all isBindingChar

/-- Model of validateBindingName: trim and check the pattern; none models
    the thrown error. -/
def validateBindingName (binding : String) : Option String :=
  let normalized := strTrim binding
  if bindingNamePat normalized then some normalized else none

/-- Model of getVaultSecretValue: read and decrypt the vault record for a
    binding; a missing or unparseable record, or a decryption failure,
    yields the empty string. A vault record is modelled by the plaintext
    it decrypts to. none models the throw on an invalid binding name. -/
def getVaultSecretValue (env : WorkerEnv) (binding : String) : Option String :=
  match validateBindingName binding with
  | none => none
  | some n =>
    match kvGet env.kv ("vault:secret:" ++ n) with
    | some (.vaultSecret p) => some p
    | _ => some ""

/-- Model of resolveSecretValue: vault plaintext when nonempty, else the
    same-named env binding when it is a string, else empty. none models
    the throw on an invalid binding name. -/
def resolveSecretValue (env : WorkerEnv) (binding : String) : Option String :=
  match validateBindingName binding with
  | none => none
  | some normalized =>
    match getVaultSecretValue env normalized with
    | none => none
    | some vaultValue =>
      if vaultValue ≠ "" then some vaultValue
      else
        match lookupStr env.vars normalized with
        | some v => some v
        | none => some ""

/-- Model of readSecretBinding (worker config module, and the local copy in
    the adapters module): read the same-named env binding only; the vault
    is not consulted. -/
def readSecretBinding (env : WorkerEnv) (bindingName : String) : String :=
  if bindingName = "" then ""
  else
    match lookupStr env.vars bindingName with
    | some v => v
    | none => ""

/-- Model of getRuntimeRecord: parse the runtime record from the KV key
    runtime:active; none models the throw when it is missing or invalid.
    The read cache and the env skew override are elided: the record holds
    the effective skew. -/
def getRuntimeRecord (env : WorkerEnv) : Option RuntimeKeyRecord :=
  match kvGet env.kv "runtime:active" with
  | some (.runtime r) => some r
  | _ => none

/-! ### Signed-request verification (shared-types auth module) -/

/-- Model of Number.parseInt(s, 10): skip leading whitespace, read an
    optional sign and then leading decimal digits, ignoring any trailing
    characters; none models NaN. -/
def digitsVal (l : List Char) : Option Nat :=
  match l.takeWhile Char.isDigit with
  | [] => none
  | ds => some (ds.foldl (fun acc c => acc * 10 + (c.toNat - 48)) 0)

/-- Parse an integer the way Number.parseInt does. -/
def parseIntModel (s : String) : Option Int :=
  match s.data.dropWhile Char.isWhitespace with
  | [] => none
  | c :: rest =>
    if c = Char.ofNat 45 then (digitsVal rest).map (fun n => -(n : Int))
    else if c = Char.ofNat 43 then (digitsVal rest).map (fun n => (n : Int))
    else (digitsVal (c :: rest)).map (fun n => (n : Int))

/-- Model of normalizeSignature: trim, and strip a leading v1= marker. -/
def normalizeSignature (signature : String) : String :=
  let trimmed := strTrim signature
  if strStartsWith trimmed "v1=" then strDrop trimmed 3 else trimmed

/-- Model of createCanonicalString: uppercased method, path, timestamp and
    body hash joined by newlines. -/
def createCanonicalString (method path timestamp bodySha256 : String) : String :=
  strToUpper method ++ "\n" ++ path ++ "\n" ++ timestamp ++ "\n" ++ bodySha256

/-- Failure reasons of verifySignedRequest. -/
inductive VerifyReason where
  | missing_secret : VerifyReason
  | invalid_timestamp : VerifyReason
  | stale_timestamp : VerifyReason
  | invalid_body_hash : VerifyReason
  | invalid_signature : VerifyReason
deriving Repr, DecidableEq

/-- The stable error string of a verification failure reason. -/
def verifyReasonString : VerifyReason → String
  | .missing_secret => "missing_secret"
  | .invalid_timestamp => "invalid_timestamp"
  | .stale_timestamp => "stale_timestamp"
  | .invalid_body_hash => "invalid_body_hash"
  | .invalid_signature => "invalid_signature"

/-- Result of verifySignedRequest. -/
inductive VerifySignedRequestResult where
  | fail (reason : VerifyReason) : VerifySignedRequestResult
  | ok (canonical : String) (bodySha256 : String) : VerifySignedRequestResult
deriving Repr, DecidableEq

/-- Options of verifySignedRequest; the timestamp is carried as the raw
    header string, parsed inside as the source does. -/
structure VerifyRequestOptions where
  method : String
  path : String
  timestamp : String
  body : String
  bodySha256 : String
  signature : String
  secret : String
  skewSeconds : Int
  nowMs : Int
deriving Repr

/-- Model of verifySignedRequest. The SHA-256 and HMAC-SHA-256 hex
    functions are opaque parameters. -/
def verifySignedRequest (sha256Hex : String → String)
    (hmacSha256Hex : String → String → String) (o : VerifyRequestOptions) :
    VerifySignedRequestResult :=
  if o.secret = "" then .fail .missing_secret
  else
    match parseIntModel o.timestamp with
    | none => .fail .invalid_timestamp
    | some ts =>
      let currentSeconds : Int := Int.fdiv o.nowMs 1000
      if o.skewSeconds < |currentSeconds - ts| then .fail .stale_timestamp
      else
        let normalizedBodyHash := normalizeSignature o.bodySha256
        let computedBodyHash := sha256Hex o.body
        if ! constantTimeEqual normalizedBodyHash computedBodyHash then .fail .invalid_body_hash
        else
          let canonical := createCanonicalString o.method o.path (toString ts) computedBodyHash
          let expectedSignature := hmacSha256Hex o.secret canonical
          let presentedSignature := normalizeSignature o.signature
          if ! constantTimeEqual expectedSignature presentedSignature then
            .fail .invalid_signature
          else .ok canonical computedBodyHash

/-! ### Runtime request authentication (worker auth module) -/

/-- An inbound HTTP request, reduced to the parts the code reads. -/
structure RequestModel where
  method : String
  headers : List (String × String)
deriving Repr

/-- Model of getHeader: empty string for a missing header. -/
def getHeader (req : RequestModel) (name : String) : String :=
  match lookupStr req.headers name with
  | some v => v
  | none => ""

/-- Split a character list on one character (model of String.split). -/
def splitChar (c : Char) : List Char → List (List Char)
  | [] => [[]]
  | d :: rest =>
    if d = c then [] :: splitChar c rest
    else
      match splitChar c rest with
      | h :: t => (d :: h) :: t
      | [] => [[d]]

/-- Model of parseBearer: Bearer token of shape keyId.keySecret with both
    halves nonempty. -/
def parseBearer (authorizationHeader : String) : Option (String × String) :=
  if strStartsWith authorizationHeader "Bearer " then
    let token := strTrim (strDrop authorizationHeader 7)
    match splitChar (Char.ofNat 46) token.data with
    | [keyIdChars, keySecretChars] =>
      if keyIdChars = [] ∨ keySecretChars = [] then none
      else some (String.mk keyIdChars, String.mk keySecretChars)
    | _ => none
  else none

/-- Result of authenticateRuntimeRequest. -/
inductive RuntimeAuthResult where
  | fail (reason : String) (status : Nat) : RuntimeAuthResult
  | ok (keyId : String) : RuntimeAuthResult
deriving Repr, DecidableEq

/-- Model of authenticateRuntimeRequest. none models an exception escaping
    the function (an invalid binding name thrown by the vault resolver). -/
def authenticateRuntimeRequest (sha256Hex : String → String)
    (hmacSha256Hex : String → String → String) (req : RequestModel) (env : WorkerEnv)
    (rawBody : String) (path : String) (nowMs : Int) : Option RuntimeAuthResult :=
  match parseBearer (getHeader req "authorization") with
  | none => some (.fail "invalid_runtime_key_format" 401)
  | some (keyId, keySecret) =>
    match getRuntimeRecord env with
    | none => some (.fail "missing_runtime_config" 500)
    | some runtime =>
      if keyId ≠ runtime.id then some (.fail "unknown_runtime_key" 401)
      else
        let providedHash := sha256Hex keySecret
        if ! constantTimeEqual providedHash runtime.keyHash then
          some (.fail "invalid_runtime_key" 401)
        else
          match resolveSecretValue env runtime.hmacSecretBinding with
          | none => none
          | some hmacSecret =>
            if hmacSecret = "" then some (.fail "missing_hmac_secret" 500)
            else
              let skew := if runtime.skewSeconds = 0 then 60 else runtime.skewSeconds
              match verifySignedRequest sha256Hex hmacSha256Hex
                { method := req.method, path := path,
                  timestamp := getHeader req "x-pincer-timestamp",
                  body := rawBody, bodySha256 := getHeader req "x-pincer-body-sha256",
                  signature := getHeader req "x-pincer-signature",
                  secret := hmacSecret, skewSeconds := skew, nowMs := nowMs } with
              | .fail reason => some (.fail (verifyReasonString reason) 401)
              | .ok _ _ => some (.ok runtime.id)

/-! ### Rate limiter (worker rate-limit module) -/

/-- Millisecond width of a rate bucket. Modelled from the spec: the
    constants module is not in the source tree; the spec fixes the bucket
    as the current minute, floor(nowMs / 60000). -/
def RATE_BUCKET_MS : Int := 60000

/-- The in-isolate counter map; a missing key reads as 0. -/
def RateCounters := String → Nat

/-- Counter key: keyId, adapter, action and minute bucket joined by colons. -/
def rateCounterKey (keyId adapter action : String) (bucket : Int) : String :=
  keyId ++ ":" ++ adapter ++ ":" ++ action ++ ":" ++ toString bucket

/-- Result of enforceRateLimit. -/
inductive RateLimitResult where
  | ok : RateLimitResult
  | rate_limited : RateLimitResult
deriving Repr, DecidableEq

/-- Model of enforceRateLimit: a non-positive limit always passes without
    counting; otherwise the call is admitted and counted while the bucket
    counter is below the limit, and rejected once it has reached it. -/
def enforceRateLimit (counters : RateCounters) (keyId adapter action : String)
    (limitPerMinute : Int) (nowMs : Int) : RateLimitResult × RateCounters :=
  if limitPerMinute ≤ 0 then (.ok, counters)
  else
    let bucket := Int.fdiv nowMs RATE_BUCKET_MS
    let counterKey := rateCounterKey keyId adapter action bucket
    let existing := counters counterKey
    if limitPerMinute ≤ (existing : Int) then (.rate_limited, counters)
    else (.ok, fun k => if k = counterKey then existing + 1 else counters k)

/-- State of the counters after n sequential calls with the same key and
    the same clock. -/
def enforceRateLimitN (counters : RateCounters) (keyId adapter action : String)
    (limitPerMinute : Int) (nowMs : Int) : Nat → RateCounters
  | 0 => counters
  | n + 1 =>
    (enforceRateLimit (enforceRateLimitN counters keyId adapter action limitPerMinute nowMs n)
      keyId adapter action limitPerMinute nowMs).2

/-! ### Manifest as a JSON value (JSON.stringify of the validated record) -/

/-- String of an HTTP method. -/
def httpMethodString : HttpMethod → String
  | .GET => "GET"
  | .POST => "POST"

/-- String of a request mode. -/
def requestModeString : RequestMode → String
  | .query => "query"
  | .json => "json"

/-- String of a placement. -/
def placementString : AuthPlacement → String
  | .header => "header"
  | .query => "query"

/-- String of a property type. -/
def propTypeString : PropType → String
  | .string => "string"
  | .integer => "integer"
  | .number => "number"
  | .boolean => "boolean"

/-- JSON of a validated property schema; keys appear in the order the
    source assigns them, absent optional fields are omitted as
    JSON.stringify omits undefined properties. -/
def propSchemaToJson (s : AdapterInputPropertySchema) : Json :=
  .obj ([("type", .str (propTypeString s.type))]
    ++ (match s.enumVals with | some l => [("enum", Json.arr l)] | none => [])
    ++ (match s.minLength with | some n => [("minLength", Json.num (n : Rat))] | none => [])
    ++ (match s.maxLength with | some n => [("maxLength", Json.num (n : Rat))] | none => [])
    ++ (match s.minimum with | some q => [("minimum", Json.num q)] | none => [])
    ++ (match s.maximum with | some q => [("maximum", Json.num q)] | none => []))

/-- JSON of a validated input schema. -/
def inputSchemaToJson (s : AdapterInputSchema) : Json :=
  .obj ([("type", Json.str "object")]
    ++ (match s.additionalProperties with
        | some b => [("additionalProperties", Json.bool b)]
        | none => [])
    ++ (match s.properties with
        | some props => [("properties", Json.obj (props.map (fun p => (p.1, propSchemaToJson p.2))))]
        | none => [])
    ++ (match s.required with
        | some r => [("required", Json.arr (r.map Json.str))]
        | none => []))

/-- JSON of a validated auth block. -/
def authToJson (a : ActionAuth) : Json :=
  .obj ([("placement", Json.str (placementString a.placement)),
         ("name", Json.str a.name),
         ("secretBinding", Json.str a.secretBinding)]
    ++ (match a.prefixVal with | some p => [("prefix", Json.str p)] | none => []))

/-- JSON of validated limits. -/
def limitsToJson (l : ActionLimits) : Json :=
  .obj [("maxBodyKb", .num (l.maxBodyKb : Rat)),
        ("timeoutMs", .num (l.timeoutMs : Rat)),
        ("ratePerMinute", .num (l.ratePerMinute : Rat))]

/-- JSON of a validated action. -/
def actionToJson (a : AdapterManifestAction) : Json :=
  .obj [("method", .str (httpMethodString a.method)),
        ("path", .str a.path),
        ("requestMode", .str (requestModeString a.requestMode)),
        ("auth", authToJson a.auth),
        ("limits", limitsToJson a.limits),
        ("inputSchema", inputSchemaToJson a.inputSchema)]

/-- JSON of a validated manifest, in the field order the validator returns
    it; baseUrl is the serialization of the parsed URL. -/
def manifestToJson (m : AdapterManifest) : Json :=
  .obj [("id", .str m.id),
        ("revision", .num (m.revision : Rat)),
        ("baseUrl", .str (urlToString m.baseUrl)),
        ("allowedHosts", .arr (m.allowedHosts.map Json.str)),
        ("requiredSecrets", .arr (m.requiredSecrets.map Json.str)),
        ("actions", .obj (m.actions.map (fun p => (p.1, actionToJson p.2))))]

/-! ### Adapter registry (worker adapters module) -/

/-- Key of the registry index singleton. -/
def REGISTRY_INDEX_KEY : String := "adapter_registry:index"

/-- Key of a manifest snapshot. -/
def manifestKvKey (adapterId : String) (revision : Int) : String :=
  "adapter_registry:manifest:" ++ (adapterId ++ ":" ++ toString revision)

/-- Key of a proposal record. -/
def proposalKvKey (proposalId : String) : String :=
  "adapter_registry:proposal:" ++ proposalId

/-- Key of a proposal audit event. -/
def proposalAuditKvKey (occurredAt eventId : String) : String :=
  "audit:proposal:" ++ (occurredAt ++ ":" ++ eventId)

/-- The empty registry index. -/
def createEmptyIndex : AdapterRegistryIndex :=
  { proposals := [], active := [] }

/-- Model of readIndex: a missing key parses as the empty index; an
    unparseable one throws (none). The 10-second read cache is elided. -/
def readIndex (env : WorkerEnv) : Option AdapterRegistryIndex :=
  match kvGet env.kv REGISTRY_INDEX_KEY with
  | none => some createEmptyIndex
  | some (.index i) => some i
  | some _ => none

/-- Model of readManifest: a missing or invalid snapshot throws (none). -/
def readManifest (env : WorkerEnv) (adapterId : String) (revision : Int) :
    Option AdapterManifest :=
  match kvGet env.kv (manifestKvKey adapterId revision) with
  | some (.manifest m) => some m
  | _ => none

/-- Model of getAdapterProposal: outer none models a throw on an
    unparseable record; inner none is a missing record. -/
def getAdapterProposal (env : WorkerEnv) (proposalId : String) :
    Option (Option AdapterProposalRecord) :=
  match kvGet env.kv (proposalKvKey proposalId) with
  | none => some none
  | some (.proposal p) => some (some p)
  | some _ => none

/-- Lookup in the active map of the index. -/
def lookupActive (l : List (String × ActiveEntry)) (k : String) : Option ActiveEntry :=
  match l with
  | [] => none
  | (k2, v) :: rest => if k2 = k then some v else lookupActive rest k

/-- Property assignment on the active map: an existing key is updated in
    place, a new key is appended, as JavaScript object assignment does. -/
def setActive (l : List (String × ActiveEntry)) (k : String) (v : ActiveEntry) :
    List (String × ActiveEntry) :=
  if l.any (fun p => p.1 = k) then l.map (fun p => if p.1 = k then (k, v) else p)
  else l ++ [(k, v)]

/-- Error payload of a failed registry operation. -/
structure RegistryOperationError where
  error : String
  status : Nat
  details : Option (List String) := none
  missingSecrets : Option (List String) := none
deriving Repr, DecidableEq

/-- Result of a registry operation. -/
inductive RegistryResult (α : Type) where
  | ok (data : α) : RegistryResult α
  | fail (error : RegistryOperationError) : RegistryResult α
deriving Repr

/-- Result payload of a successful apply. -/
structure ApplyManifestResult where
  adapterId : String
  revision : Int
  updateType : String
deriving Repr, DecidableEq

/-- Input of applyAdapterManifest. -/
structure ApplyInput where
  manifestRaw : Option Json := none
  proposalId : Option String := none

/-- Commit step of applyAdapterManifest, after the update type has been
    decided: check required secrets against the env bindings, then write
    the snapshot, delete the consumed proposal, write the index, and write
    the approval audit event, in that order. nowIso and eventId stand for
    new Date().toISOString() and the generated audit event id. -/
def applyCommit (env : WorkerEnv) (proposalRecord : Option AdapterProposalRecord)
    (manifest : AdapterManifest) (index : AdapterRegistryIndex) (updateType : String)
    (nowIso eventId : String) :
    Option (RegistryResult (ApplyManifestResult × AdapterManifest) × List KvOp) :=
  let missingSecrets := manifest.requiredSecrets.filter
    (fun bindingName => strLength (readSecretBinding env bindingName) = 0)
  if missingSecrets ≠ [] then
    some (.fail { error := "missing_required_secrets", status := 400,
                  missingSecrets := some missingSecrets }, [])
  else
    let newActive := setActive index.active manifest.id
      { adapterId := manifest.id, revision := manifest.revision, enabled := true,
        updatedAt := nowIso }
    let newProposals :=
      match proposalRecord with
      | some pr => index.proposals.filter (fun p => p.proposalId ≠ pr.proposalId)
      | none => index.proposals
    let newIndex : AdapterRegistryIndex := { proposals := newProposals, active := newActive }
    let ops :=
      [KvOp.put (manifestKvKey manifest.id manifest.revision) (.manifest manifest)]
      ++ (match proposalRecord with
          | some pr => [KvOp.delete (proposalKvKey pr.proposalId)]
          | none => [])
      ++ [KvOp.put REGISTRY_INDEX_KEY (.index newIndex)]
      ++ (match proposalRecord with
          | some pr =>
            [KvOp.put (proposalAuditKvKey nowIso eventId)
              (.audit { eventId := eventId, eventType := "proposal_approved",
                        occurredAt := nowIso, proposalId := pr.proposalId,
                        adapterId := pr.adapterId, revision := pr.revision,
                        actor := "admin", reason := none, manifest := pr.manifest })]
          | none => [])
    some (.ok ({ adapterId := manifest.id, revision := manifest.revision,
                 updateType := updateType }, manifest), ops)

/-- Revision handling of applyAdapterManifest once the manifest is known:
    reject an outdated revision, compare canonical content on an equal
    revision, then commit with the decided update type. -/
def applyResolved (env : WorkerEnv) (proposalRecord : Option AdapterProposalRecord)
    (manifest : AdapterManifest) (nowIso eventId : String) :
    Option (RegistryResult (ApplyManifestResult × AdapterManifest) × List KvOp) :=
  match readIndex env with
  | none => none
  | some index =>
    match lookupActive index.active manifest.id with
    | some act =>
      if manifest.revision < act.revision then
        some (.fail { error := "revision_outdated", status := 409,
                      details := some ["active revision is " ++ toString act.revision,
                                       "provided revision is " ++ toString manifest.revision] },
              [])
      else if manifest.revision = act.revision then
        match readManifest env manifest.id manifest.revision with
        | none => none
        | some currentManifest =>
          let currentHash := stableStringify (manifestToJson currentManifest)
          let nextHash := stableStringify (manifestToJson manifest)
          if currentHash ≠ nextHash then
            some (.fail { error := "revision_conflict", status := 409,
                          details := some
                            ["same revision already exists with different manifest content",
                             "bump revision and retry"] }, [])
          else
            applyCommit env proposalRecord manifest index
              (if act.enabled then "in_place_update" else "re_enable") nowIso eventId
      else
        applyCommit env proposalRecord manifest index "in_place_update" nowIso eventId
    | none => applyCommit env proposalRecord manifest index "new_install" nowIso eventId

/-- Model of applyAdapterManifest: a nonempty (after trimming) proposalId
    selects the stored proposal (manifestRaw is not consulted); otherwise
    manifestRaw is validated. none models a thrown exception. -/
def applyAdapterManifest (env : WorkerEnv) (input : ApplyInput) (nowIso eventId : String) :
    Option (RegistryResult (ApplyManifestResult × AdapterManifest) × List KvOp) :=
  let usingProposal :=
    match input.proposalId with
    | some s => decide (0 < strLength (strTrim s))
    | none => false
  if usingProposal then
    match getAdapterProposal env ((input.proposalId).getD "") with
    | none => none
    | some none => some (.fail { error := "proposal_not_found", status := 404 }, [])
    | some (some proposalRecord) =>
      applyResolved env (some proposalRecord) proposalRecord.manifest nowIso eventId
  else
    match validateAdapterManifest input.manifestRaw with
    | .fail errors =>
      some (.fail { error := "invalid_manifest", status := 400, details := some errors }, [])
    | .ok manifest => applyResolved env none manifest nowIso eventId

/-- Registry invariant: every adapter the stored index activates has a
    readable manifest snapshot at its (adapterId, revision) key. -/
def indexIntact (store : KvStore) : Prop :=
  ∀ i p, kvGet store REGISTRY_INDEX_KEY = some (.index i) → p ∈ i.active →
    ∃ m, kvGet store (manifestKvKey p.1 p.2.revision) = some (.manifest m)

/-- Concrete proposal record for the C1, C2 and C3 scenarios. -/
def c2Proposal : AdapterProposalRecord :=
  { proposalId := "pr_1", adapterId := "youtube", revision := 1,
    submittedAt := "2024-01-01T00:00:00.000Z", submittedBy := "rk_1",
    manifest := seedManifest }

/-- Environment holding the stored proposal and the required env binding. -/
def c2Env : WorkerEnv :=
  { kv := [("adapter_registry:proposal:pr_1", .proposal c2Proposal)],
    vars := [("YOUTUBE_API_KEY", "k")] }

/-- The registry index the C2 apply writes. -/
def c2NewIndex : AdapterRegistryIndex :=
  { proposals := [],
    active := [("youtube",
      { adapterId := "youtube", revision := 1, enabled := true, updatedAt := "T1" })] }

/-- The audit event the C2 apply writes. -/
def c2Audit : ProposalAuditEvent :=
  { eventId := "ae_1", eventType := "proposal_approved", occurredAt := "T1",
    proposalId := "pr_1", adapterId := "youtube", revision := 1, actor := "admin",
    reason := none, manifest := seedManifest }

/-- The ordered write trace the C2 apply produces. -/
def c2Ops : List KvOp :=
  [KvOp.put (manifestKvKey "youtube" 1) (.manifest seedManifest),
   KvOp.delete (proposalKvKey "pr_1"),
   KvOp.put REGISTRY_INDEX_KEY (.index c2NewIndex),
   KvOp.put (proposalAuditKvKey "T1" "ae_1") (.audit c2Audit)]

/-- Whether an op writes the registry index. -/
def isIndexWrite : KvOp → Bool
  | .put k _ => k = REGISTRY_INDEX_KEY
  | _ => false

/-- Whether an op deletes the given proposal record. -/
def isProposalDelete (proposalId : String) : KvOp → Bool
  | .delete k => k = proposalKvKey proposalId
  | _ => false

/-- Environment for the C1 scenario: the required secret is present in the
    vault only, not as an env binding. -/
def c1Env : WorkerEnv :=
  { kv := [("vault:secret:YOUTUBE_API_KEY", .vaultSecret "vault-api-key")],
    vars := [] }

mutual

/-- Decidable check of JsonWF: object keys are duplicate-free at every
    nesting depth. -/
def jsonWFb : Json → Bool
  | .null => true
  | .bool _ => true
  | .num _ => true
  | .str _ => true
  | .arr xs => jsonWFbList xs
  | .obj es => decide ((es.map Prod.fst).Nodup) && jsonWFbEntries es

/-- jsonWFb on every element of an array. -/
def jsonWFbList : List Json → Bool
  | [] => true
  | x :: xs => jsonWFb x && jsonWFbList xs

/-- jsonWFb on every value of an object entry list. -/
def jsonWFbEntries : List (String × Json) → Bool
  | [] => true
  | p :: es => jsonWFb p.2 && jsonWFbEntries es

end

/-- Object value with keys out of alphabetical order, for the C7 scenario. -/
def c7v1 : Json :=
  .obj [("b", .num 1), ("a", .obj [("y", .str "x"), ("x", .arr [.num 2, .num 3])])]

/-- The same object value with keys reordered at both nesting depths. -/
def c7v2 : Json :=
  .obj [("a", .obj [("x", .arr [.num 2, .num 3]), ("y", .str "x")]), ("b", .num 1)]

/-- Active entry of the C7 registry index: youtube revision 1 is enabled. -/
def c7Active : ActiveEntry :=
  { adapterId := "youtube", revision := 1, enabled := true, updatedAt := "T0" }

/-- Registry index of the C7 scenario. -/
def c7Index : AdapterRegistryIndex :=
  { proposals := [], active := [("youtube", c7Active)] }

/-- Environment of the C7 scenario: the index activates youtube revision 1
    and its manifest snapshot is stored. -/
def c7Env : WorkerEnv :=
  { kv := [(REGISTRY_INDEX_KEY, .index c7Index),
           (manifestKvKey "youtube" 1, .manifest seedManifest)],
    vars := [("YOUTUBE_API_KEY", "k")] }

/-- Model of pairingKvKey: the pairing prefix plus the trimmed, uppercased
    code. -/
def pairingKvKey (code : String) : String :=
  "pairing:" ++ strToUpper (strTrim code)

/-- Model of handleConnect. The request body's code is an Option String
    (none when the body lacks a string code); the response is a status and
    JSON payload plus the ordered KV writes. A stored value at the pairing
    key that is not a pairing record models an unparseable record. -/
def handleConnect (env : WorkerEnv) (code : Option String) :
    (Nat × Json) × List KvOp :=
  match code with
  | none => ((400, .obj [("error", .str "missing_code")]), [])
  | some c =>
    let normalizedCode := strTrim c
    if strLength normalizedCode = 0 then
      ((400, .obj [("error", .str "missing_code")]), [])
    else
      let key := pairingKvKey normalizedCode
      match kvGet env.kv key with
      | none => ((404, .obj [("error", .str "invalid_or_expired_code")]), [])
      | some (.pairing record) =>
        ((200, .obj [("ok", .bool true),
                     ("workerUrl", .str record.workerUrl),
                     ("runtimeKey", .str record.runtimeKey),
                     ("hmacSecret", .str record.hmacSecret)]),
         [KvOp.delete key])
      | some _ =>
        ((500, .obj [("error", .str "corrupt_pairing_record")]), [KvOp.delete key])

/-- Pairing record of the C8 scenario. -/
def c8Pairing : PairingRecord :=
  { workerUrl := "https://worker.example", runtimeKey := "rk_1.secret",
    hmacSecret := "hmac_secret" }

/-- Environment of the C8 scenario: one pairing record stored under the
    uppercased code. -/
def c8Env : WorkerEnv :=
  { kv := [("pairing:ABC12345", .pairing c8Pairing)], vars := [] }

/-- The admin session cookie name. -/
def SESSION_COOKIE : String := "pincer_admin_session"

/-- Session idle TTL, in seconds. -/
def SESSION_IDLE_TTL_SECONDS : Int := 30 * 60

/-- Session rotation interval, in milliseconds. -/
def SESSION_ROTATE_INTERVAL_MS : Int := 15 * 60 * 1000

/-- Key of a stored admin session. -/
def sessionKvKey (sessionId : String) : String := "admin:session:" ++ sessionId

/-- One cookie-header pair as parseCookies reads it: skipped when blank,
    without a separator, or with it at position 0 or an empty trimmed key. -/
def cookieEntry (pair : List Char) : Option (String × String) :=
  let trimmed := strTrim (String.mk pair)
  if strLength trimmed = 0 then none
  else
    match trimmed.data.findIdx? (fun c => c = '=') with
    | none => none
    | some 0 => none
    | some (i + 1) =>
      let key := strTrim (String.mk (trimmed.data.take (i + 1)))
      let value := strTrim (String.mk (trimmed.data.drop (i + 2)))
      if strLength key = 0 then none else some (key, value)

/-- Model of parseCookies: the pairs in header order; a later pair
    overwrites an earlier one with the same key at lookup. -/
def parseCookies (req : RequestModel) : List (String × String) :=
  (splitChar ';' (getHeader req "cookie").data).filterMap cookieEntry

/-- Model of getCookie: the last pair with the name, or the empty string. -/
def getCookie (req : RequestModel) (name : String) : String :=
  match (parseCookies req).reverse.find? (fun p => p.1 == name) with
  | some p => p.2
  | none => ""

/-- The session cookie as createCookie renders buildSessionCookie's
    arguments (Max-Age is the 8-hour absolute TTL). -/
def buildSessionCookie (sessionId : String) : String :=
  "pincer_admin_session=" ++ sessionId ++
    "; Path=/; Max-Age=28800; SameSite=Lax; HttpOnly; Secure"

/-- The expired session cookie createCookie renders for logout and
    failures. -/
def buildExpiredSessionCookie : String :=
  "pincer_admin_session=; Path=/; Max-Age=0; SameSite=Lax; HttpOnly; Secure"

/-- Result of requireAdminSession. -/
inductive SessionValidationResult where
  | ok (session : AdminSessionRecord) (setCookie : Option String) :
      SessionValidationResult
  | fail (status : Nat) (error : String) (setCookie : Option String) :
      SessionValidationResult
deriving Repr

/-- Model of rotateSession: delete the old record, then store the session
    under a fresh id with a fresh CSRF token and refreshed timestamps.
    freshSessionId and freshCsrf stand for the two randomHex(24) values. -/
def rotateSession (env : WorkerEnv) (session : AdminSessionRecord) (nowMs : Int)
    (freshSessionId freshCsrf : String) :
    (AdminSessionRecord × String) × List KvOp :=
  let next := AdminSessionRecord.mk freshSessionId session.username freshCsrf
    session.createdAt nowMs nowMs nowMs session.expiresAt
    (nowMs + SESSION_IDLE_TTL_SECONDS * 1000)
  ((next, buildSessionCookie freshSessionId),
   [KvOp.delete (sessionKvKey session.sessionId),
    KvOp.put (sessionKvKey freshSessionId) (.session next)])

/-- Model of requireAdminSession with requireCsrf and an explicit nowMs.
    A stored value at the session key that is not a session record models an
    unparseable record. -/
def requireAdminSession (env : WorkerEnv) (req : RequestModel) (requireCsrf : Bool)
    (nowMs : Int) (freshSessionId freshCsrf : String) :
    SessionValidationResult × List KvOp :=
  let sessionId := getCookie req SESSION_COOKIE
  if strLength sessionId = 0 then
    (.fail 401 "missing_admin_session" (some buildExpiredSessionCookie), [])
  else
    match kvGet env.kv (sessionKvKey sessionId) with
    | some (.session session) =>
      if nowMs > session.expiresAt ∨ nowMs > session.idleExpiresAt then
        (.fail 401 "expired_admin_session" (some buildExpiredSessionCookie),
         [KvOp.delete (sessionKvKey session.sessionId)])
      else if requireCsrf &&
          (decide (strLength (getHeader req "x-pincer-csrf") = 0) ||
           !constantTimeEqual (getHeader req "x-pincer-csrf") session.csrfToken) then
        (.fail 403 "invalid_csrf_token" none, [])
      else if SESSION_ROTATE_INTERVAL_MS ≤ nowMs - session.rotatedAt then
        let r := rotateSession env session nowMs freshSessionId freshCsrf
        (.ok r.1.1 (some r.1.2), r.2)
      else
        let updated := AdminSessionRecord.mk session.sessionId session.username
          session.csrfToken session.createdAt nowMs nowMs session.rotatedAt
          session.expiresAt (nowMs + SESSION_IDLE_TTL_SECONDS * 1000)
        (.ok updated none,
         [KvOp.put (sessionKvKey updated.sessionId) (.session updated)])
    | _ => (.fail 401 "invalid_admin_session" (some buildExpiredSessionCookie), [])

/-- Admin session of the C9 scenario: rotated at epoch 0, far from expiry. -/
def c9Session : AdminSessionRecord :=
  AdminSessionRecord.mk "sid_old_1" "admin" "csrf_old" 0 0 0 0 100000000 100000000

/-- Environment of the C9 scenario: the session stored under its id. -/
def c9Env : WorkerEnv :=
  { kv := [("admin:session:sid_old_1", .session c9Session)], vars := [] }

/-- Request of the C9 scenario, presenting the old session cookie. -/
def c9Req : RequestModel :=
  { method := "GET", headers := [("cookie", "pincer_admin_session=sid_old_1")] }

/-- Whether one string occurs inside another (String.prototype.includes). -/
def strIncludes (pat s : String) : Bool :=
  (findSubstr pat.data s.data).isSome

/-- JS strict equality on JSON values as the enum check compares them:
    primitives by value, arrays and objects by reference (never equal to a
    freshly parsed value). -/
def jsonStrictEq : Json → Json → Bool
  | .null, .null => true
  | .bool a, .bool b => a = b
  | .num a, .num b => decide (a = b)
  | .str a, .str b => a = b
  | _, _ => false

/-- Property lookup on an object modelled as an entry list; the last entry
    wins, as in a JS object built by JSON.parse. -/
def propLookup (l : List (String × AdapterInputPropertySchema)) (k : String) :
    Option AdapterInputPropertySchema :=
  l.foldl (fun acc p => if p.1 = k then some p.2 else acc) none

/-- The enum membership error of validateValueByPropertySchema. -/
def enumErrorsFor (value : Json) (field : String)
    (schema : AdapterInputPropertySchema) : List String :=
  match schema.enumVals with
  | some cands =>
    if cands.any (fun c => jsonStrictEq c value) then []
    else [field ++ ": value not in enum"]
  | none => []

/-- Model of validateValueByPropertySchema: the errors it pushes for one
    value, in source order; a failed type check returns early, skipping the
    enum check. -/
def validateValueByPropertySchema (value : Json) (field : String)
    (schema : AdapterInputPropertySchema) : List String :=
  match schema.type with
  | .string =>
    match value with
    | .str s =>
      (match schema.minLength with
       | some m => if (strLength s : Int) < m then
           [field ++ ": expected minLength " ++ toString m] else []
       | none => []) ++
      (match schema.maxLength with
       | some m => if m < (strLength s : Int) then
           [field ++ ": expected maxLength " ++ toString m] else []
       | none => []) ++
      enumErrorsFor value field schema
    | _ => [field ++ ": expected string"]
  | .integer =>
    match value with
    | .num q =>
      if q.den = 1 then
        (match schema.minimum with
         | some m => if q < m then [field ++ ": expected >= " ++ numToString m]
           else []
         | none => []) ++
        (match schema.maximum with
         | some m => if m < q then [field ++ ": expected <= " ++ numToString m]
           else []
         | none => []) ++
        enumErrorsFor value field schema
      else [field ++ ": expected integer"]
    | _ => [field ++ ": expected integer"]
  | .number =>
    match value with
    | .num q =>
      (match schema.minimum with
       | some m => if q < m then [field ++ ": expected >= " ++ numToString m]
         else []
       | none => []) ++
      (match schema.maximum with
       | some m => if m < q then [field ++ ": expected <= " ++ numToString m]
         else []
       | none => []) ++
      enumErrorsFor value field schema
    | _ => [field ++ ": expected number"]
  | .boolean =>
    match value with
    | .bool _ => enumErrorsFor value field schema
    | _ => [field ++ ": expected boolean"]

/-- Model of validateInputWithSchema: missing required properties first,
    then per-entry errors in input order. -/
def validateInputWithSchema (input : List (String × Json))
    (schema : AdapterInputSchema) : List String :=
  let properties := (schema.properties).getD []
  let required := (schema.required).getD []
  (required.filterMap (fun requiredKey =>
    if input.any (fun p => decide (p.1 = requiredKey)) then none
    else some ("input." ++ requiredKey ++ ": missing required property"))) ++
  (input.map (fun p =>
    match propLookup properties p.1 with
    | none =>
      if schema.additionalProperties = some true then []
      else ["input." ++ p.1 ++ ": property is not allowed"]
    | some propertySchema =>
      validateValueByPropertySchema p.2 ("input." ++ p.1) propertySchema)).flatten

/-- Model of coerceInputPayload on the parsed request body (none for a
    body that is not an object or lacks a usable input property). -/
def coerceInputPayload (parsedBody : Option Json) : Option (List (String × Json)) :=
  match parsedBody with
  | some (.obj fields) =>
    match jget fields "input" with
    | none => none
    | some (.obj o) => some o
    | some .null => some []
    | some _ => none
  | _ => none

mutual

/-- JS String(value) conversion for query parameter values. -/
def jsValueString : Json → String
  | .null => "null"
  | .bool b => if b then "true" else "false"
  | .num q => numToString q
  | .str s => s
  | .arr xs => jsValueStringList xs
  | .obj _ => "[object Object]"

/-- Array.prototype.toString: elements joined by commas, null as empty. -/
def jsValueStringList : List Json → String
  | [] => ""
  | [.null] => ""
  | [x] => jsValueString x
  | .null :: rest => "," ++ jsValueStringList rest
  | x :: rest => jsValueString x ++ "," ++ jsValueStringList rest

end

/-- URLSearchParams.set and Headers.set: replace an existing name in place
    or append. -/
def setParam (l : List (String × String)) (k v : String) : List (String × String) :=
  if l.any (fun p => p.1 = k) then l.map (fun p => if p.1 = k then (k, v) else p)
  else l ++ [(k, v)]

/-- The upstream request buildUpstreamRequest assembles: the resolved URL
    with its query parameters kept separately, the headers, the method and
    the optional body. -/
structure UpstreamRequest where
  url : Url
  query : List (String × String)
  headers : List (String × String)
  method : HttpMethod
  body : Option String
deriving Repr

/-- The upstream response as the proxy consumes it. -/
structure UpstreamResponse where
  ok : Bool
  status : Nat
  contentType : String
  jsonBody : Json
  textBody : String
deriving Repr

/-- Model of buildUpstreamRequest. none models the throw on a secret
    binding that resolves to nothing. -/
def buildUpstreamRequest (env : WorkerEnv) (adapterManifest : AdapterManifest)
    (actionSpec : AdapterManifestAction) (input : List (String × Json)) :
    Option UpstreamRequest :=
  let url := resolveUrl actionSpec.path adapterManifest.baseUrl
  match resolveSecretValue env actionSpec.auth.secretBinding with
  | none => none
  | some authSecret =>
    if authSecret = "" then none
    else
      let headers1 : List (String × String) :=
        match actionSpec.auth.placement with
        | .header => [(actionSpec.auth.name,
            ((actionSpec.auth.prefixVal).getD "") ++ authSecret)]
        | .query => []
      let query1 : List (String × String) :=
        match actionSpec.auth.placement with
        | .header => []
        | .query => [(actionSpec.auth.name, authSecret)]
      match actionSpec.requestMode with
      | .json =>
        some (UpstreamRequest.mk url query1
          (setParam headers1 "content-type" "application/json")
          actionSpec.method (some (jsonSerialize (.obj input))))
      | .query =>
        let query2 := input.foldl (fun acc p =>
          match p.2 with
          | .null => acc
          | v => setParam acc p.1 (jsValueString v)) query1
        some (UpstreamRequest.mk url query2 headers1 actionSpec.method none)

/-- Manifest snapshots of every active adapter, as getRegistrySnapshot
    loads them; none models the throw on a missing snapshot. -/
def snapshotManifests (env : WorkerEnv) :
    List (String × ActiveEntry) → Option (List (String × AdapterManifest))
  | [] => some []
  | (aid, act) :: rest =>
    match readManifest env aid act.revision, snapshotManifests env rest with
    | some m, some l => some ((aid, m) :: l)
    | _, _ => none

/-- Map.get on the snapshot map. -/
def lookupManifest : List (String × AdapterManifest) → String → Option AdapterManifest
  | [], _ => none
  | (k2, v) :: rest, k => if k2 = k then some v else lookupManifest rest k

/-- Action lookup on a validated manifest's actions record. -/
def lookupAction : List (String × AdapterManifestAction) → String →
    Option AdapterManifestAction
  | [], _ => none
  | (k2, v) :: rest, k => if k2 = k then some v else lookupAction rest k

/-- Model of getAdapterAction: the snapshot's active entry must exist and be
    enabled, and its manifest must hold the action. The outer none models a
    throw while loading the snapshot. -/
def getAdapterAction (env : WorkerEnv) (adapterId actionName : String) :
    Option (Option (AdapterManifest × AdapterManifestAction)) :=
  match readIndex env with
  | none => none
  | some index =>
    match snapshotManifests env index.active with
    | none => none
    | some manifests =>
      match lookupActive index.active adapterId with
      | none => some none
      | some active =>
        if ! active.enabled then some none
        else
          match lookupManifest manifests adapterId with
          | none => some none
          | some manifest =>
            match lookupAction manifest.actions actionName with
            | none => some none
            | some action => some (some (manifest, action))

/-- Model of proxyAdapterRequest: the response as a status and JSON payload,
    together with the rate counters after the call. parsedBody stands for
    JSON.parse of rawBody (none when parsing fails), fetchImpl for the
    upstream fetch, and nowMs for Date.now() at entry. The outer none
    models the catch-all 500 internal_error response, whose redacted
    message the model does not track. -/
def proxyAdapterRequest (sha256Hex : String → String)
    (hmacSha256Hex : String → String → String)
    (fetchImpl : UpstreamRequest → UpstreamResponse)
    (env : WorkerEnv) (counters : RateCounters) (req : RequestModel)
    (rawBody : String) (parsedBody : Option Json) (adapter action : String)
    (nowMs : Int) : Option ((Nat × Json) × RateCounters) :=
  let path := "/v1/adapter/" ++ adapter ++ "/" ++ action
  match authenticateRuntimeRequest sha256Hex hmacSha256Hex req env rawBody path nowMs with
  | none => none
  | some (.fail reason status) =>
    some ((status, .obj [("error", .str reason)]), counters)
  | some (.ok keyId) =>
    match getAdapterAction env adapter action with
    | none => none
    | some none => some ((403, .obj [("error", .str "action_not_allowed")]), counters)
    | some (some (adapterManifest, actionSpec)) =>
      match coerceInputPayload parsedBody with
      | none =>
        some ((400, .obj [("error", .str "invalid_input_payload"),
          ("message", .str "Expected body shape \x7b\"input\": \x7b...\x7d\x7d")]),
          counters)
      | some input =>
        let validationErrors := validateInputWithSchema input actionSpec.inputSchema
        if validationErrors ≠ [] then
          some ((400, .obj [("error", .str "invalid_input"),
            ("details", .arr (validationErrors.map Json.str))]), counters)
        else
          let maxBodyBytes := actionSpec.limits.maxBodyKb * 1024
          if maxBodyBytes < (strLength rawBody : Int) then
            some ((413, .obj [("error", .str "body_too_large")]), counters)
          else
            let rl := enforceRateLimit counters keyId adapter action
              actionSpec.limits.ratePerMinute nowMs
            match rl.1 with
            | .rate_limited =>
              some ((429, .obj [("error", .str "rate_limited")]), rl.2)
            | .ok =>
              match buildUpstreamRequest env adapterManifest actionSpec input with
              | none => none
              | some upReq =>
                if upReq.url.scheme ≠ "https" ∨
                    strToLower upReq.url.host ∉ adapterManifest.allowedHosts then
                  some ((403, .obj [("error", .str "host_not_allowed")]), rl.2)
                else
                  let upstream := fetchImpl upReq
                  if ! upstream.ok then
                    some ((502, .obj [("error", .str "upstream_error"),
                      ("upstreamStatus", .num (upstream.status : Rat))]), rl.2)
                  else if strIncludes "application/json" upstream.contentType then
                    some ((200, .obj [("ok", .bool true), ("adapter", .str adapter),
                      ("action", .str action), ("data", upstream.jsonBody)]), rl.2)
                  else
                    some ((200, .obj [("ok", .bool true), ("adapter", .str adapter),
                      ("action", .str action), ("data", .str upstream.textBody)]), rl.2)

/-- Concrete runtime record for the C5 witness. -/
def c5Runtime : RuntimeKeyRecord :=
  { id := "rk_1", keyHash := "h", hmacSecretBinding := "PINCER_HMAC_SECRET_ACTIVE",
    keySecretBinding := "PINCER_RUNTIME_KEY_SECRET_ACTIVE", skewSeconds := 60 }

/-- Concrete request for the C5 witness: timestamp 100 seconds. -/
def c5Req : RequestModel :=
  { method := "POST",
    headers := [("authorization", "Bearer rk_1.secretpart"),
                ("x-pincer-timestamp", "100"),
                ("x-pincer-body-sha256", "h"),
                ("x-pincer-signature", "v1=sig")] }

/-- Concrete environment for the C5 witness. -/
def c5Env : WorkerEnv :=
  { kv := [("runtime:active", .runtime c5Runtime)],
    vars := [("PINCER_HMAC_SECRET_ACTIVE", "topsecret")] }

/-- Environment of the C6 scenario: an authenticated runtime key and the
    enabled youtube adapter with its snapshot. -/
def c6Env : WorkerEnv :=
  { kv := [("runtime:active", .runtime c5Runtime),
           (REGISTRY_INDEX_KEY, .index c7Index),
           (manifestKvKey "youtube" 1, .manifest seedManifest)],
    vars := [("PINCER_HMAC_SECRET_ACTIVE", "topsecret")] }

/-- Parsed request body of the C6 scenario. -/
def c6Body : Json :=
  .obj [("input", .obj [("channelId", .str "abc")])]

/-- A fixed upstream response for the C6 scenario's fetch parameter. -/
def c6Upstream : UpstreamResponse :=
  { ok := true, status := 200, contentType := "application/json",
    jsonBody := .null, textBody := "" }

/-! ### Theorems -/

theorem nat_or_eq_zero {m n : Nat} (h : m ||| n = 0) : m = 0 ∧ n = 0 := by
  refine ⟨Nat.zero_of_testBit_eq_false fun i => ?_,
          Nat.zero_of_testBit_eq_false fun i => ?_⟩
  · have hb := congrArg (fun x => Nat.testBit x i) h
    simp [Nat.testBit_or] at hb
    exact hb.1
  · have hb := congrArg (fun x => Nat.testBit x i) h
    simp [Nat.testBit_or] at hb
    exact hb.2

theorem foldl_or_eq_zero (l : List Nat) (f : Nat → Nat) (init : Nat) :
    l.foldl (fun acc i => acc ||| f i) init = 0 ↔ init = 0 ∧ ∀ x ∈ l, f x = 0 := by
  induction l generalizing init with
  | nil => simp
  | cons x xs ih =>
    simp only [List.foldl_cons, ih, List.mem_cons]
    constructor
    · rintro ⟨h0, hall⟩
      rcases nat_or_eq_zero h0 with ⟨hi, hx⟩
      refine ⟨hi, fun y hy => ?_⟩
      rcases hy with rfl | hy
      · exact hx
      · exact hall y hy
    · rintro ⟨hi, hall⟩
      refine ⟨?_, fun y hy => hall y (Or.inr hy)⟩
      rw [hi, hall x (Or.inl rfl)]
      simp

theorem ctMismatch_eq_zero_iff (a b : List Nat) : ctMismatch a b = 0 ↔ a = b := by
  unfold ctMismatch
  rw [foldl_or_eq_zero]
  constructor
  · rintro ⟨hlen, hall⟩
    have hl : a.length = b.length := by
      by_contra hne
      simp [hne] at hlen
    apply List.ext_getElem hl
    intro i hia hib
    have hi : i ∈ List.range (max a.length b.length) := by
      simp [Nat.lt_of_lt_of_le hia (le_max_left _ _)]
    have := hall i hi
    have hx : a.getD i 0 = b.getD i 0 := by
      have := Nat.xor_eq_zero.mp this
      exact this
    rwa [List.getD_eq_getElem a 0 hia, List.getD_eq_getElem b 0 hib] at hx
  · rintro rfl
    exact ⟨by simp, fun x _ => by simp⟩

theorem utf8EncodeChar_ne_nil (c : Char) : utf8EncodeChar c ≠ [] := by
  unfold utf8EncodeChar
  split_ifs <;> simp

theorem char_toNat_lt (c : Char) : c.toNat < 1114112 := by
  have h := c.valid
  rcases h with h | h
  · exact Nat.lt_trans h (by norm_num)
  · exact h.2

theorem char_eq_of_toNat_eq {c₁ c₂ : Char} (h : c₁.toNat = c₂.toNat) : c₁ = c₂ := by
  have h1 : Char.ofNat c₁.toNat = Char.ofNat c₂.toNat := by rw [h]
  rwa [Char.ofNat_toNat, Char.ofNat_toNat] at h1

theorem utf8EncodeChar_append_inj {c₁ c₂ : Char} {r₁ r₂ : List Nat}
    (h : utf8EncodeChar c₁ ++ r₁ = utf8EncodeChar c₂ ++ r₂) : c₁ = c₂ ∧ r₁ = r₂ := by
  have hv₁ := char_toNat_lt c₁
  have hv₂ := char_toNat_lt c₂
  unfold utf8EncodeChar at h
  split_ifs at h <;>
    simp only [List.cons_append, List.nil_append, List.cons.injEq] at h <;>
    first
      | (exfalso; omega)
      | exact ⟨char_eq_of_toNat_eq (by omega), by tauto⟩

theorem utf8Encode_inj {s₁ s₂ : List Char} (h : utf8Encode s₁ = utf8Encode s₂) :
    s₁ = s₂ := by
  induction s₁ generalizing s₂ with
  | nil =>
    cases s₂ with
    | nil => rfl
    | cons c cs =>
      exfalso
      simp only [utf8Encode, List.map_nil, List.flatten, List.map_cons, List.flatten_cons] at h
      exact utf8EncodeChar_ne_nil c (by
        rcases List.append_eq_nil.mp h.symm with ⟨h1, _⟩
        exact h1)
  | cons c cs ih =>
    cases s₂ with
    | nil =>
      exfalso
      simp only [utf8Encode, List.map_nil, List.flatten, List.map_cons, List.flatten_cons] at h
      exact utf8EncodeChar_ne_nil c (by
        rcases List.append_eq_nil.mp h with ⟨h1, _⟩
        exact h1)
    | cons d ds =>
      simp only [utf8Encode, List.map_cons, List.flatten_cons] at h
      rcases utf8EncodeChar_append_inj h with ⟨hc, hr⟩
      have := @ih ds (by simpa [utf8Encode] using hr)
      rw [hc, this]

theorem constantTimeEqual_iff (a b : String) : constantTimeEqual a b = true ↔ a = b := by
  unfold constantTimeEqual
  rw [beq_iff_eq, ctMismatch_eq_zero_iff]
  constructor
  · intro h
    have hdata := utf8Encode_inj h
    cases a; cases b
    simp only [] at hdata
    exact congrArg String.mk hdata
  · rintro rfl
    rfl

theorem constantTimeEqual_false_of_length_ne (a b : String)
    (h : (utf8Encode a.data).length ≠ (utf8Encode b.data).length) :
    constantTimeEqual a b = false := by
  unfold constantTimeEqual
  have : ¬ ctMismatch (utf8Encode a.data) (utf8Encode b.data) = 0 := by
    unfold ctMismatch
    rw [foldl_or_eq_zero]
    rintro ⟨h0, -⟩
    simp [h] at h0
  simpa using this

theorem stableSortEntries_eq_map (es : List (String × Json)) :
    stableSortEntries es = es.map (fun p => (p.1, stableSort p.2)) := by
  induction es with
  | nil => rfl
  | cons p es ih =>
    cases p
    simp [stableSortEntries, ih]

theorem stableSortList_eq_map (xs : List Json) :
    stableSortList xs = xs.map stableSort := by
  induction xs with
  | nil => rfl
  | cons x xs ih => simp [stableSortList, ih]

theorem sortEntries_perm_eq {l₁ l₂ : List (String × Json)}
    (hp : l₁.Perm l₂) (hn : (l₁.map Prod.fst).Nodup) :
    List.insertionSort keyLe l₁ = List.insertionSort keyLe l₂ := by
  haveI : IsTotal (String × Json) keyLe := ⟨fun a b => le_total a.1 b.1⟩
  haveI : IsTrans (String × Json) keyLe := ⟨fun _ _ _ hab hbc => le_trans hab hbc⟩
  haveI : IsAntisymm (String × Json) (fun p q : String × Json => p.1 < q.1) :=
    ⟨fun a b hab hba => absurd hba (not_lt_of_lt hab)⟩
  have hperm : (List.insertionSort keyLe l₁).Perm (List.insertionSort keyLe l₂) :=
    ((List.perm_insertionSort keyLe l₁).trans hp).trans
      (List.perm_insertionSort keyLe l₂).symm
  have hs₁ : (List.insertionSort keyLe l₁).Sorted keyLe := List.sorted_insertionSort keyLe l₁
  have hs₂ : (List.insertionSort keyLe l₂).Sorted keyLe := List.sorted_insertionSort keyLe l₂
  have hn₁ : ((List.insertionSort keyLe l₁).map Prod.fst).Nodup := by
    have := (List.perm_insertionSort keyLe l₁).map Prod.fst
    exact this.nodup_iff.mpr hn
  have hn₂ : ((List.insertionSort keyLe l₂).map Prod.fst).Nodup := by
    have := hperm.map Prod.fst
    exact this.nodup_iff.mp hn₁
  have hne₁ : (List.insertionSort keyLe l₁).Pairwise (fun p q => p.1 ≠ q.1) :=
    (List.pairwise_map.mp hn₁)
  have hne₂ : (List.insertionSort keyLe l₂).Pairwise (fun p q => p.1 ≠ q.1) :=
    (List.pairwise_map.mp hn₂)
  have hlt₁ : (List.insertionSort keyLe l₁).Pairwise (fun p q : String × Json => p.1 < q.1) := by
    have := hs₁.and hne₁
    exact this.imp (fun h => lt_of_le_of_ne h.1 h.2)
  have hlt₂ : (List.insertionSort keyLe l₂).Pairwise (fun p q : String × Json => p.1 < q.1) := by
    have := hs₂.and hne₂
    exact this.imp (fun h => lt_of_le_of_ne h.1 h.2)
  exact List.eq_of_perm_of_sorted hperm hlt₁ hlt₂

theorem forall₂_map_stableSort : ∀ {xs ys : List Json},
    KeyReorderEquivList xs ys →
    (∀ x ∈ xs, ∀ y, KeyReorderEquiv x y → JsonWF x → JsonWF y →
      stableSort x = stableSort y) →
    (∀ x ∈ xs, JsonWF x) → (∀ y ∈ ys, JsonWF y) →
    xs.map stableSort = ys.map stableSort := by
  intro xs
  induction xs with
  | nil =>
    intro ys hf _ _ _
    cases hf
    rfl
  | cons x xs' ih =>
    intro ys hf hrec wx wy
    cases hf with
    | cons hxy hrest =>
      rename_i y ys'
      simp only [List.map_cons, List.cons.injEq]
      refine ⟨hrec x (by simp) y hxy (wx x (by simp)) (wy y (by simp)), ?_⟩
      exact ih hrest (fun a ha => hrec a (by simp [ha])) (fun a ha => wx a (by simp [ha]))
        (fun a ha => wy a (by simp [ha]))

theorem forall₂_map_entries : ∀ {es rs : List (String × Json)},
    KeyReorderEquivEntries es rs →
    (∀ p ∈ es, ∀ y, KeyReorderEquiv p.2 y → JsonWF p.2 → JsonWF y →
      stableSort p.2 = stableSort y) →
    (∀ p ∈ es, JsonWF p.2) → (∀ p ∈ rs, JsonWF p.2) →
    es.map (fun p => (p.1, stableSort p.2)) = rs.map (fun p => (p.1, stableSort p.2)) := by
  intro es
  induction es with
  | nil =>
    intro rs hf _ _ _
    cases hf
    rfl
  | cons p es' ih =>
    intro rs hf hrec wx wy
    cases p with
    | mk k v =>
      cases hf with
      | cons hvw hrest =>
        rename_i w rs'
        simp only [List.map_cons, List.cons.injEq]
        constructor
        · exact Prod.ext rfl
            (hrec (k, v) (by simp) w hvw (wx (k, v) (by simp)) (wy (k, w) (by simp)))
        · exact ih hrest (fun a ha => hrec a (by simp [ha]))
            (fun a ha => wx a (by simp [ha])) (fun a ha => wy a (by simp [ha]))

theorem sizeOf_snd_lt_of_mem {p : String × Json} {es : List (String × Json)}
    (h : p ∈ es) : sizeOf p.2 < sizeOf es := by
  have h1 : sizeOf p < sizeOf es := List.sizeOf_lt_of_mem h
  cases p with
  | mk k v =>
    simp only [Prod.mk.sizeOf_spec] at h1
    simp only []
    omega

theorem stableSort_eq_of_equiv_aux (n : Nat) :
    ∀ v₁ v₂ : Json, sizeOf v₁ ≤ n → KeyReorderEquiv v₁ v₂ → JsonWF v₁ → JsonWF v₂ →
      stableSort v₁ = stableSort v₂ := by
  induction n with
  | zero =>
    intro v₁ v₂ hle h w₁ w₂
    exfalso
    cases v₁ <;> simp_arith at hle
  | succ n ih =>
    intro v₁ v₂ hle h w₁ w₂
    cases h with
    | null => rfl
    | bool b => rfl
    | num q => rfl
    | str s => rfl
    | arr hf =>
      rename_i xs ys
      cases w₁ with
      | arr wxs =>
        cases w₂ with
        | arr wys =>
          simp only [stableSort, stableSortList_eq_map, Json.arr.injEq]
          refine forall₂_map_stableSort hf ?_ wxs wys
          intro x hx y hxy wa wb
          refine ih x y ?_ hxy wa wb
          have h1 : sizeOf x < sizeOf xs := List.sizeOf_lt_of_mem hx
          have h2 : sizeOf (Json.arr xs) = 1 + sizeOf xs := by simp
          omega
    | obj hf hperm =>
      rename_i es rs qs
      cases w₁ with
      | obj hnes wes =>
        cases w₂ with
        | obj hnqs wqs =>
          simp only [stableSort, stableSortEntries_eq_map, Json.obj.injEq]
          have hmapeq : es.map (fun p => (p.1, stableSort p.2)) =
              rs.map (fun p => (p.1, stableSort p.2)) := by
            refine forall₂_map_entries hf ?_ (fun p hp => wes p hp) ?_
            · intro p hp y hxy wa wb
              refine ih p.2 y ?_ hxy wa wb
              have h1 : sizeOf p.2 < sizeOf es := sizeOf_snd_lt_of_mem hp
              have h2 : sizeOf (Json.obj es) = 1 + sizeOf es := by simp
              omega
            · intro p hp
              exact wqs p (hperm.mem_iff.mp hp)
          have hperm2 : (rs.map (fun p => (p.1, stableSort p.2))).Perm
              (qs.map (fun p => (p.1, stableSort p.2))) := hperm.map _
          have hnodup : ((es.map (fun p => (p.1, stableSort p.2))).map Prod.fst).Nodup := by
            have : (es.map (fun p => (p.1, stableSort p.2))).map Prod.fst = es.map Prod.fst := by
              simp [List.map_map, Function.comp]
            rw [this]
            exact hnes
          rw [hmapeq]
          exact sortEntries_perm_eq hperm2 (by rw [← hmapeq]; exact hnodup)

theorem stableStringify_eq_of_equiv {v₁ v₂ : Json}
    (h : KeyReorderEquiv v₁ v₂) (w₁ : JsonWF v₁) (w₂ : JsonWF v₂) :
    stableStringify v₁ = stableStringify v₂ := by
  unfold stableStringify
  rw [stableSort_eq_of_equiv_aux (sizeOf v₁) v₁ v₂ le_rfl h w₁ w₂]

theorem actionFinalErrors_nil {rs hosts : List String} {u : Url}
    {p : String × AdapterManifestAction}
    (h : actionFinalErrors rs hosts (some u) p = []) :
    p.2.auth.secretBinding ∈ rs ∧ (resolveUrl p.2.path u).scheme = "https" ∧
      strToLower (resolveUrl p.2.path u).host ∈ hosts := by
  unfold actionFinalErrors at h
  rcases List.append_eq_nil.mp h with ⟨h1, h2⟩
  rcases List.append_eq_nil.mp h2 with ⟨h3, h4⟩
  refine ⟨?_, ?_, ?_⟩
  · by_contra hc
    simp [hc] at h1
  · by_contra hc
    simp [hc] at h3
  · by_contra hc
    simp [hc] at h4

theorem validateAdapterManifest_ok_actions {raw : Option Json} {m : AdapterManifest}
    (h : validateAdapterManifest raw = .ok m) :
    ∀ p ∈ m.actions,
      p.2.auth.secretBinding ∈ m.requiredSecrets ∧
      (resolveUrl p.2.path m.baseUrl).scheme = "https" ∧
      strToLower (resolveUrl p.2.path m.baseUrl).host ∈ m.allowedHosts := by
  match raw with
  | none => simp [validateAdapterManifest] at h
  | some .null => simp [validateAdapterManifest] at h
  | some (.bool b) => simp [validateAdapterManifest] at h
  | some (.num q) => simp [validateAdapterManifest] at h
  | some (.str s) => simp [validateAdapterManifest] at h
  | some (.arr xs) => simp [validateAdapterManifest] at h
  | some (.obj fields) =>
    simp only [validateAdapterManifest] at h
    rcases hbase : (parseUrlField (jget fields "baseUrl") "manifest.baseUrl").2 with _ | u
    · rw [hbase] at h
      exact absurd h (by simp)
    · rw [hbase] at h
      split at h
      case _ u2 hu2 =>
        injection hu2 with hu2e
        subst hu2e
        split at h
        case isTrue herr =>
          obtain rfl : m = AdapterManifest.mk (validateId fields).2
              (parsePositiveInt (jget fields "revision") "manifest.revision").2 u
              (validateAllowedHosts fields).2 (validateRequiredSecrets fields).2
              (validateActions fields).2 := by
            cases h
            rfl
          intro p hp
          have hfin : ((validateActions fields).2.map
              (actionFinalErrors (validateRequiredSecrets fields).2
                (validateAllowedHosts fields).2 (some u))).flatten = [] := by
            simp only [List.append_eq_nil] at herr
            tauto
          have hone : actionFinalErrors (validateRequiredSecrets fields).2
              (validateAllowedHosts fields).2 (some u) p = [] := by
            have hmem : actionFinalErrors (validateRequiredSecrets fields).2
                (validateAllowedHosts fields).2 (some u) p ∈
                ((validateActions fields).2.map
                  (actionFinalErrors (validateRequiredSecrets fields).2
                    (validateAllowedHosts fields).2 (some u))) :=
              List.mem_map_of_mem _ hp
            by_contra hne
            rcases List.exists_mem_of_ne_nil _ hne with ⟨x, hx⟩
            have hxmem : x ∈ ((validateActions fields).2.map
                (actionFinalErrors (validateRequiredSecrets fields).2
                  (validateAllowedHosts fields).2 (some u))).flatten :=
              List.mem_flatten.mpr ⟨_, hmem, hx⟩
            rw [hfin] at hxmem
            exact absurd hxmem (List.not_mem_nil x)
          exact actionFinalErrors_nil hone
        case isFalse herr =>
          exact absurd h (by simp)
      case _ hu2 =>
        exact absurd hu2 (by simp)

theorem verify_ts_exact_pass (sha256Hex : String → String)
    (hmacSha256Hex : String → String → String) (o : VerifyRequestOptions) (ts : Int)
    (h1 : parseIntModel o.timestamp = some ts) (h2 : o.secret ≠ "")
    (h3 : |Int.fdiv o.nowMs 1000 - ts| = o.skewSeconds) :
    verifySignedRequest sha256Hex hmacSha256Hex o ≠ .fail .invalid_timestamp ∧
    verifySignedRequest sha256Hex hmacSha256Hex o ≠ .fail .stale_timestamp := by
  unfold verifySignedRequest
  rw [if_neg h2]
  rw [h1]
  simp only []
  have hlt : ¬ (o.skewSeconds < |Int.fdiv o.nowMs 1000 - ts|) := by
    rw [h3]
    exact lt_irrefl _
  rw [if_neg hlt]
  constructor <;> split_ifs <;> simp

theorem verify_ts_stale (sha256Hex : String → String)
    (hmacSha256Hex : String → String → String) (o : VerifyRequestOptions) (ts : Int)
    (h1 : parseIntModel o.timestamp = some ts) (h2 : o.secret ≠ "")
    (h3 : o.skewSeconds + 1 ≤ |Int.fdiv o.nowMs 1000 - ts|) :
    verifySignedRequest sha256Hex hmacSha256Hex o = .fail .stale_timestamp := by
  unfold verifySignedRequest
  rw [if_neg h2]
  rw [h1]
  simp only []
  rw [if_pos (by omega)]

theorem auth_stale_401 (sha256Hex : String → String)
    (hmacSha256Hex : String → String → String) (req : RequestModel) (env : WorkerEnv)
    (rawBody path : String) (nowMs : Int) (keyId keySecret : String)
    (runtime : RuntimeKeyRecord) (hmacSecret : String) (ts : Int)
    (h1 : parseBearer (getHeader req "authorization") = some (keyId, keySecret))
    (h2 : getRuntimeRecord env = some runtime)
    (h3 : keyId = runtime.id)
    (h4 : constantTimeEqual (sha256Hex keySecret) runtime.keyHash = true)
    (h5 : resolveSecretValue env runtime.hmacSecretBinding = some hmacSecret)
    (h6 : hmacSecret ≠ "")
    (h7 : parseIntModel (getHeader req "x-pincer-timestamp") = some ts)
    (h8 : (if runtime.skewSeconds = 0 then 60 else runtime.skewSeconds) + 1 ≤
      |Int.fdiv nowMs 1000 - ts|) :
    authenticateRuntimeRequest sha256Hex hmacSha256Hex req env rawBody path nowMs =
      some (.fail "stale_timestamp" 401) := by
  unfold authenticateRuntimeRequest
  rw [h1]
  simp only []
  rw [h2]
  simp only []
  rw [if_neg (by simp [h3])]
  rw [h4]
  simp only [Bool.not_true]
  rw [if_neg (by simp)]
  rw [h5]
  simp only []
  rw [if_neg h6]
  rw [verify_ts_stale sha256Hex hmacSha256Hex _ ts h7 h6 h8]
  rfl

theorem kvGet_erase_ne (store : KvStore) (k k2 : String) (h : k2 ≠ k) :
    kvGet (kvErase store k) k2 = kvGet store k2 := by
  induction store with
  | nil => rfl
  | cons p rest ih =>
    cases p with
    | mk k3 v =>
      simp only [kvErase]
      by_cases hk : k3 = k
      · rw [if_pos hk, ih]
        have hne : ¬ k3 = k2 := by
          rw [hk]
          exact fun he => h he.symm
        simp [kvGet, hne]
      · rw [if_neg hk]
        simp only [kvGet]
        by_cases h2 : k3 = k2
        · simp [h2]
        · simp [h2, ih]

theorem kvGet_erase_same (store : KvStore) (k : String) :
    kvGet (kvErase store k) k = none := by
  induction store with
  | nil => rfl
  | cons p rest ih =>
    cases p with
    | mk k3 v =>
      simp only [kvErase]
      by_cases hk : k3 = k
      · simp [hk, ih]
      · simp [hk, kvGet, ih]

theorem kvGet_put_same (store : KvStore) (k : String) (v : KvVal) :
    kvGet (applyOp store (.put k v)) k = some v := by
  simp [applyOp, kvGet]

theorem kvGet_put_other (store : KvStore) (k k2 : String) (v : KvVal) (h : k2 ≠ k) :
    kvGet (applyOp store (.put k v)) k2 = kvGet store k2 := by
  simp only [applyOp, kvGet]
  rw [if_neg (fun he => h he.symm)]
  exact kvGet_erase_ne store k k2 h

theorem kvGet_delete_same (store : KvStore) (k : String) :
    kvGet (applyOp store (.delete k)) k = none := by
  simp only [applyOp]
  exact kvGet_erase_same store k

theorem kvGet_delete_other (store : KvStore) (k k2 : String) (h : k2 ≠ k) :
    kvGet (applyOp store (.delete k)) k2 = kvGet store k2 := by
  simp only [applyOp]
  exact kvGet_erase_ne store k k2 h

theorem str_ne_of_getElem_ne {s t : String} {k : Nat}
    (h : s.data[k]? ≠ t.data[k]?) : s ≠ t :=
  fun he => h (by rw [he])

theorem str_append_getElem {p s : String} {k : Nat} (h : k < p.data.length) :
    (p ++ s).data[k]? = p.data[k]? := by
  rw [String.data_append, List.getElem?_append, if_pos h]

theorem manifestKvKey_get17 (a : String) (r : Int) :
    (manifestKvKey a r).data[17]? = some (Char.ofNat 109) := by
  unfold manifestKvKey
  rw [str_append_getElem (by decide)]
  decide

theorem proposalKvKey_get17 (p : String) :
    (proposalKvKey p).data[17]? = some (Char.ofNat 112) := by
  unfold proposalKvKey
  rw [str_append_getElem (by decide)]
  decide

theorem auditKvKey_get1 (t e : String) :
    (proposalAuditKvKey t e).data[1]? = some (Char.ofNat 117) := by
  unfold proposalAuditKvKey
  rw [str_append_getElem (by decide)]
  decide

theorem manifestKvKey_get1 (a : String) (r : Int) :
    (manifestKvKey a r).data[1]? = some (Char.ofNat 100) := by
  unfold manifestKvKey
  rw [str_append_getElem (by decide)]
  decide

theorem manifestKvKey_ne_proposalKvKey (a : String) (r : Int) (p : String) :
    manifestKvKey a r ≠ proposalKvKey p :=
  str_ne_of_getElem_ne (by rw [manifestKvKey_get17, proposalKvKey_get17]; decide)

theorem manifestKvKey_ne_indexKey (a : String) (r : Int) :
    manifestKvKey a r ≠ REGISTRY_INDEX_KEY :=
  @str_ne_of_getElem_ne _ _ 17 (by rw [manifestKvKey_get17]; decide)

theorem manifestKvKey_ne_auditKey (a : String) (r : Int) (t e : String) :
    manifestKvKey a r ≠ proposalAuditKvKey t e :=
  str_ne_of_getElem_ne (by rw [manifestKvKey_get1, auditKvKey_get1]; decide)

theorem indexKey_ne_proposalKvKey (p : String) :
    REGISTRY_INDEX_KEY ≠ proposalKvKey p :=
  @str_ne_of_getElem_ne _ _ 17 (by rw [proposalKvKey_get17]; decide)

theorem indexKey_ne_auditKey (t e : String) :
    REGISTRY_INDEX_KEY ≠ proposalAuditKvKey t e :=
  @str_ne_of_getElem_ne _ _ 1 (by rw [auditKvKey_get1]; decide)

theorem trim_core_idem (p : Char → Bool) (l : List Char) :
    ((l.dropWhile p).rdropWhile p).dropWhile p = (l.dropWhile p).rdropWhile p := by
  rw [List.dropWhile_eq_self_iff]
  intro hl
  rcases List.rdropWhile_prefix p (l.dropWhile p) with ⟨t, ht⟩
  have hlen : 0 < (l.dropWhile p).length := by
    rw [← ht]
    simp only [List.length_append]
    omega
  have hgoal := List.dropWhile_get_zero_not p l hlen
  suffices hsame : ((l.dropWhile p).rdropWhile p).get ⟨0, hl⟩ =
      (l.dropWhile p).get ⟨0, hlen⟩ by
    rw [hsame]
    exact hgoal
  have e1 : ((l.dropWhile p).rdropWhile p)[0]? =
      some (((l.dropWhile p).rdropWhile p).get ⟨0, hl⟩) := by
    simp [List.getElem?_eq_getElem hl, List.get_eq_getElem]
  have e2 : (l.dropWhile p)[0]? = some ((l.dropWhile p).get ⟨0, hlen⟩) := by
    simp [List.getElem?_eq_getElem hlen, List.get_eq_getElem]
  have e3 : ((l.dropWhile p).rdropWhile p)[0]? = (l.dropWhile p)[0]? := by
    conv_rhs => rw [← ht]
    rw [List.getElem?_append, if_pos hl]
  rw [e1, e2] at e3
  exact Option.some.inj e3

theorem strTrim_idem (s : String) : strTrim (strTrim s) = strTrim s := by
  unfold strTrim
  simp only []
  congr 1
  rw [trim_core_idem, List.rdropWhile_idempotent]

theorem enforceRateLimitN_counter (counters : RateCounters) (keyId adapter action : String)
    (limit : Int) (nowMs : Int)
    (h0 : counters (rateCounterKey keyId adapter action (Int.fdiv nowMs RATE_BUCKET_MS)) = 0)
    (hpos : 0 < limit) :
    ∀ k : Nat, (k : Int) ≤ limit →
      enforceRateLimitN counters keyId adapter action limit nowMs k
        (rateCounterKey keyId adapter action (Int.fdiv nowMs RATE_BUCKET_MS)) = k := by
  intro k
  induction k with
  | zero =>
    intro _
    exact h0
  | succ n ih =>
    intro hle
    have hn : (n : Int) ≤ limit := by
      push_cast at hle
      omega
    have hcount := ih hn
    simp only [enforceRateLimitN, enforceRateLimit]
    rw [if_neg (by omega)]
    simp only [hcount]
    rw [if_neg (by push_cast at hle ⊢; omega)]
    simp

theorem enforceRateLimit_admits (counters : RateCounters) (keyId adapter action : String)
    (limit : Int) (nowMs : Int)
    (h0 : counters (rateCounterKey keyId adapter action (Int.fdiv nowMs RATE_BUCKET_MS)) = 0)
    (hpos : 0 < limit) (k : Nat) (hk : (k : Int) < limit) :
    (enforceRateLimit (enforceRateLimitN counters keyId adapter action limit nowMs k)
      keyId adapter action limit nowMs).1 = .ok := by
  have hcount := enforceRateLimitN_counter counters keyId adapter action limit nowMs h0 hpos k
    (le_of_lt hk)
  simp only [enforceRateLimit]
  rw [if_neg (by omega)]
  simp only [hcount]
  rw [if_neg (by omega)]

theorem enforceRateLimit_rejects (counters : RateCounters) (keyId adapter action : String)
    (limit : Int) (nowMs : Int)
    (h0 : counters (rateCounterKey keyId adapter action (Int.fdiv nowMs RATE_BUCKET_MS)) = 0)
    (hpos : 0 < limit) :
    (enforceRateLimit
      (enforceRateLimitN counters keyId adapter action limit nowMs limit.toNat)
      keyId adapter action limit nowMs).1 = .rate_limited := by
  have hcount := enforceRateLimitN_counter counters keyId adapter action limit nowMs h0 hpos
    limit.toNat (by omega)
  simp only [enforceRateLimit]
  rw [if_neg (by omega)]
  simp only [hcount]
  rw [if_pos (by omega)]

theorem proxy_surfaces_rate_limited
    (sha256Hex : String → String) (hmacSha256Hex : String → String → String)
    (fetchImpl : UpstreamRequest → UpstreamResponse) (env : WorkerEnv)
    (counters : RateCounters) (req : RequestModel) (rawBody : String)
    (parsedBody : Option Json) (adapter action : String) (nowMs : Int)
    (keyId : String) (adapterManifest : AdapterManifest)
    (actionSpec : AdapterManifestAction) (input : List (String × Json))
    (hauth : authenticateRuntimeRequest sha256Hex hmacSha256Hex req env rawBody
      ("/v1/adapter/" ++ adapter ++ "/" ++ action) nowMs = some (.ok keyId))
    (hact : getAdapterAction env adapter action =
      some (some (adapterManifest, actionSpec)))
    (hinput : coerceInputPayload parsedBody = some input)
    (hvalid : validateInputWithSchema input actionSpec.inputSchema = [])
    (hbody : (strLength rawBody : Int) ≤ actionSpec.limits.maxBodyKb * 1024)
    (hrl : (enforceRateLimit counters keyId adapter action
      actionSpec.limits.ratePerMinute nowMs).1 = .rate_limited) :
    proxyAdapterRequest sha256Hex hmacSha256Hex fetchImpl env counters req rawBody
      parsedBody adapter action nowMs =
      some ((429, .obj [("error", .str "rate_limited")]),
        (enforceRateLimit counters keyId adapter action
          actionSpec.limits.ratePerMinute nowMs).2) := by
  unfold proxyAdapterRequest
  simp only []
  rw [hauth]
  simp only []
  rw [hact]
  simp only []
  rw [hinput]
  simp only []
  rw [hvalid]
  rw [if_neg (by simp)]
  rw [if_neg (by omega)]
  rw [hrl]

theorem setActive_mem {l : List (String × ActiveEntry)} {k : String} {v : ActiveEntry}
    {p : String × ActiveEntry} (h : p ∈ setActive l k v) : p = (k, v) ∨ p ∈ l := by
  unfold setActive at h
  split_ifs at h with hany
  · rcases List.mem_map.mp h with ⟨q, hq, hfq⟩
    by_cases hqk : q.1 = k
    · left
      rw [← hfq]
      simp [hqk]
    · right
      rw [← hfq]
      simp only [hqk, if_false]
      exact hq
  · rcases List.mem_append.mp h with hq | hq
    · right
      exact hq
    · left
      simpa using hq

theorem applyCommit_ok_shape {env : WorkerEnv} {pr : AdapterProposalRecord}
    {manifest : AdapterManifest} {index : AdapterRegistryIndex} {updateType : String}
    {nowIso eventId : String} {data : ApplyManifestResult × AdapterManifest}
    {ops : List KvOp}
    (h : applyCommit env (some pr) manifest index updateType nowIso eventId =
      some (.ok data, ops)) :
    data = ({ adapterId := manifest.id, revision := manifest.revision,
              updateType := updateType }, manifest) ∧
    ops = [KvOp.put (manifestKvKey manifest.id manifest.revision) (.manifest manifest),
           KvOp.delete (proposalKvKey pr.proposalId),
           KvOp.put REGISTRY_INDEX_KEY (.index
             { proposals := index.proposals.filter (fun p => p.proposalId ≠ pr.proposalId),
               active := setActive index.active manifest.id
                 { adapterId := manifest.id, revision := manifest.revision,
                   enabled := true, updatedAt := nowIso } }),
           KvOp.put (proposalAuditKvKey nowIso eventId) (.audit
             { eventId := eventId, eventType := "proposal_approved", occurredAt := nowIso,
               proposalId := pr.proposalId, adapterId := pr.adapterId,
               revision := pr.revision, actor := "admin", reason := none,
               manifest := pr.manifest })] := by
  unfold applyCommit at h
  simp only [] at h
  split_ifs at h with hms
  · exact absurd h (by simp)
  · have hx := Option.some.inj h
    have h1 : RegistryResult.ok
        (ApplyManifestResult.mk manifest.id manifest.revision updateType, manifest) =
        RegistryResult.ok data :=
      congrArg Prod.fst hx
    injection h1 with h1e
    refine ⟨h1e.symm, ?_⟩
    have h2 := congrArg Prod.snd hx
    simp only [] at h2
    rw [← h2]
    rfl

theorem applyResolved_ok {env : WorkerEnv} {pr : Option AdapterProposalRecord}
    {m : AdapterManifest} {nowIso eventId : String}
    {data : ApplyManifestResult × AdapterManifest} {ops : List KvOp}
    (h : applyResolved env pr m nowIso eventId = some (.ok data, ops)) :
    ∃ index updateType, readIndex env = some index ∧
      applyCommit env pr m index updateType nowIso eventId = some (.ok data, ops) := by
  unfold applyResolved at h
  cases hr : readIndex env with
  | none =>
    rw [hr] at h
    exact absurd h (by simp)
  | some index =>
    rw [hr] at h
    simp only [] at h
    cases ha : lookupActive index.active m.id with
    | none =>
      rw [ha] at h
      exact ⟨index, "new_install", rfl, h⟩
    | some act =>
      rw [ha] at h
      simp only [] at h
      by_cases h1 : m.revision < act.revision
      · rw [if_pos h1] at h
        exact absurd h (by simp)
      · rw [if_neg h1] at h
        by_cases h2 : m.revision = act.revision
        · rw [if_pos h2] at h
          cases hm : readManifest env m.id m.revision with
          | none =>
            rw [hm] at h
            exact absurd h (by simp)
          | some cur =>
            rw [hm] at h
            simp only [] at h
            by_cases h3 : stableStringify (manifestToJson cur) ≠
                stableStringify (manifestToJson m)
            · rw [if_pos h3] at h
              exact absurd h (by simp)
            · rw [if_neg h3] at h
              exact ⟨index, _, rfl, h⟩
        · rw [if_neg h2] at h
          exact ⟨index, "in_place_update", rfl, h⟩

theorem intact_put_manifest {store : KvStore} {a : String} {r : Int} {m : AdapterManifest}
    (h : indexIntact store) :
    indexIntact (applyOp store (.put (manifestKvKey a r) (.manifest m))) := by
  intro i p hi hp
  rw [kvGet_put_other _ _ _ _ (manifestKvKey_ne_indexKey a r).symm] at hi
  by_cases hk : manifestKvKey p.1 p.2.revision = manifestKvKey a r
  · rw [hk, kvGet_put_same]
    exact ⟨m, rfl⟩
  · rw [kvGet_put_other _ _ _ _ hk]
    exact h i p hi hp

theorem intact_delete_proposal {store : KvStore} {pid : String} (h : indexIntact store) :
    indexIntact (applyOp store (.delete (proposalKvKey pid))) := by
  intro i p hi hp
  rw [kvGet_delete_other _ _ _ (indexKey_ne_proposalKvKey pid)] at hi
  rcases h i p hi hp with ⟨m0, hm0⟩
  refine ⟨m0, ?_⟩
  rw [kvGet_delete_other _ _ _ (manifestKvKey_ne_proposalKvKey _ _ pid)]
  exact hm0

theorem intact_put_audit {store : KvStore} {t e : String} {ev : ProposalAuditEvent}
    (h : indexIntact store) :
    indexIntact (applyOp store (.put (proposalAuditKvKey t e) (.audit ev))) := by
  intro i p hi hp
  rw [kvGet_put_other _ _ _ _ (indexKey_ne_auditKey t e)] at hi
  rcases h i p hi hp with ⟨m0, hm0⟩
  refine ⟨m0, ?_⟩
  rw [kvGet_put_other _ _ _ _ (manifestKvKey_ne_auditKey _ _ t e)]
  exact hm0

theorem apply_proposal_trace_and_intact
    (env : WorkerEnv) (input : ApplyInput) (nowIso eventId pid : String)
    (pr : AdapterProposalRecord) (data : ApplyManifestResult × AdapterManifest)
    (ops : List KvOp)
    (hpid : input.proposalId = some pid)
    (hne : 0 < strLength (strTrim pid))
    (hpr : getAdapterProposal env pid = some (some pr))
    (h : applyAdapterManifest env input nowIso eventId = some (.ok data, ops)) :
    (∃ newIndex auditEvent,
      ops = [KvOp.put (manifestKvKey data.2.id data.2.revision) (.manifest data.2),
             KvOp.delete (proposalKvKey pr.proposalId),
             KvOp.put REGISTRY_INDEX_KEY (.index newIndex),
             KvOp.put (proposalAuditKvKey nowIso eventId) (.audit auditEvent)]) ∧
    (indexIntact env.kv → ∀ k, indexIntact (applyOps env.kv (ops.take k))) := by
  unfold applyAdapterManifest at h
  rw [hpid] at h
  simp only [decide_eq_true_eq] at h
  rw [if_pos hne] at h
  simp only [Option.getD_some] at h
  rw [hpr] at h
  simp only [] at h
  obtain ⟨index, updateType, hidx, hcommit⟩ := applyResolved_ok h
  obtain ⟨hdata, hops⟩ := applyCommit_ok_shape hcommit
  subst hdata
  subst hops
  constructor
  · exact ⟨_, _, rfl⟩
  · intro hint k
    have hstore1 : indexIntact (applyOp env.kv
        (.put (manifestKvKey pr.manifest.id pr.manifest.revision) (.manifest pr.manifest))) :=
      intact_put_manifest hint
    have hstore2 : indexIntact (applyOp (applyOp env.kv
        (.put (manifestKvKey pr.manifest.id pr.manifest.revision) (.manifest pr.manifest)))
        (.delete (proposalKvKey pr.proposalId))) :=
      intact_delete_proposal hstore1
    have hstore3 : indexIntact (applyOp (applyOp (applyOp env.kv
        (.put (manifestKvKey pr.manifest.id pr.manifest.revision) (.manifest pr.manifest)))
        (.delete (proposalKvKey pr.proposalId)))
        (.put REGISTRY_INDEX_KEY (.index
          { proposals := index.proposals.filter (fun p => p.proposalId ≠ pr.proposalId),
            active := setActive index.active pr.manifest.id
              { adapterId := pr.manifest.id, revision := pr.manifest.revision,
                enabled := true, updatedAt := nowIso } }))) := by
      intro i p hi hp
      rw [kvGet_put_same] at hi
      have hieq := Option.some.inj hi
      obtain rfl : i =
          { proposals := index.proposals.filter (fun p => p.proposalId ≠ pr.proposalId),
            active := setActive index.active pr.manifest.id
              { adapterId := pr.manifest.id, revision := pr.manifest.revision,
                enabled := true, updatedAt := nowIso } } := by
        cases hieq
        rfl
      rcases setActive_mem hp with hpnew | hpold
      · subst hpnew
        simp only []
        rw [kvGet_put_other _ _ _ _ (manifestKvKey_ne_indexKey _ _)]
        rw [kvGet_delete_other _ _ _ (manifestKvKey_ne_proposalKvKey _ _ _)]
        rw [kvGet_put_same]
        exact ⟨pr.manifest, rfl⟩
      · unfold readIndex at hidx
        cases hkv : kvGet env.kv REGISTRY_INDEX_KEY with
        | none =>
          rw [hkv] at hidx
          have hempty : index = createEmptyIndex := by
            cases hidx
            rfl
          rw [hempty] at hpold
          exact absurd hpold (List.not_mem_nil p)
        | some v =>
          rw [hkv] at hidx
          cases v with
          | index i0 =>
            have hio : index = i0 := by
              cases hidx
              rfl
            subst hio
            rcases hint index p hkv hpold with ⟨m0, hm0⟩
            by_cases hkk : manifestKvKey p.1 p.2.revision =
                manifestKvKey pr.manifest.id pr.manifest.revision
            · rw [kvGet_put_other _ _ _ _ (manifestKvKey_ne_indexKey _ _)]
              rw [kvGet_delete_other _ _ _ (manifestKvKey_ne_proposalKvKey _ _ _)]
              rw [hkk, kvGet_put_same]
              exact ⟨pr.manifest, rfl⟩
            · rw [kvGet_put_other _ _ _ _ (manifestKvKey_ne_indexKey _ _)]
              rw [kvGet_delete_other _ _ _ (manifestKvKey_ne_proposalKvKey _ _ _)]
              rw [kvGet_put_other _ _ _ _ hkk]
              exact ⟨m0, hm0⟩
          | manifest m => simp at hidx
          | proposal p2 => simp at hidx
          | audit e2 => simp at hidx
          | vaultSecret s2 => simp at hidx
          | pairing r2 => simp at hidx
          | runtime r2 => simp at hidx
          | session s2 => simp at hidx
          | raw s2 => simp at hidx
    match k with
    | 0 => simpa [applyOps] using hint
    | 1 =>
      simp only [List.take, applyOps, List.foldl]
      exact hstore1
    | 2 =>
      simp only [List.take, applyOps, List.foldl]
      exact hstore2
    | 3 =>
      simp only [List.take, applyOps, List.foldl]
      exact hstore3
    | (n + 4) =>
      simp only [List.take, List.take_nil, applyOps, List.foldl]
      exact intact_put_audit hstore3

theorem apply_proposal_ignores_manifestRaw (env : WorkerEnv) (pid : String)
    (raw raw2 : Option Json) (nowIso eventId : String)
    (hne : 0 < strLength (strTrim pid)) :
    applyAdapterManifest env (ApplyInput.mk raw (some pid)) nowIso eventId =
    applyAdapterManifest env (ApplyInput.mk raw2 (some pid)) nowIso eventId := by
  unfold applyAdapterManifest
  simp only [decide_eq_true_eq]
  rw [if_pos hne, if_pos hne]

theorem apply_neither_invalid_manifest (env : WorkerEnv) (nowIso eventId : String) :
    applyAdapterManifest env (ApplyInput.mk none none) nowIso eventId =
    some (.fail (RegistryOperationError.mk "invalid_manifest" 400
      (some ["manifest: must be a JSON object"]) none), []) := rfl

theorem jsonWFbList_mem {xs : List Json} {x : Json}
    (h : jsonWFbList xs = true) (hx : x ∈ xs) : jsonWFb x = true := by
  induction xs with
  | nil => cases hx
  | cons y ys ih =>
    simp only [jsonWFbList, Bool.and_eq_true] at h
    rcases List.mem_cons.mp hx with rfl | hx2
    · exact h.1
    · exact ih h.2 hx2

theorem jsonWFbEntries_mem {es : List (String × Json)} {p : String × Json}
    (h : jsonWFbEntries es = true) (hp : p ∈ es) : jsonWFb p.2 = true := by
  induction es with
  | nil => cases hp
  | cons q qs ih =>
    simp only [jsonWFbEntries, Bool.and_eq_true] at h
    rcases List.mem_cons.mp hp with rfl | hp2
    · exact h.1
    · exact ih h.2 hp2

theorem jsonWF_of_b_aux (n : Nat) :
    ∀ v : Json, sizeOf v ≤ n → jsonWFb v = true → JsonWF v := by
  induction n with
  | zero =>
    intro v hle hb
    exfalso
    cases v <;> simp_arith at hle
  | succ n ih =>
    intro v hle hb
    cases v with
    | null => exact .null
    | bool b => exact .bool b
    | num q => exact .num q
    | str s => exact .str s
    | arr xs =>
      simp only [jsonWFb] at hb
      refine .arr ?_
      intro x hx
      refine ih x ?_ (jsonWFbList_mem hb hx)
      have h1 : sizeOf x < sizeOf xs := List.sizeOf_lt_of_mem hx
      have h2 : sizeOf (Json.arr xs) = 1 + sizeOf xs := by simp
      omega
    | obj es =>
      simp only [jsonWFb, Bool.and_eq_true, decide_eq_true_eq] at hb
      refine .obj hb.1 ?_
      intro p hp
      refine ih p.2 ?_ (jsonWFbEntries_mem hb.2 hp)
      have h1 : sizeOf p.2 < sizeOf es := sizeOf_snd_lt_of_mem hp
      have h2 : sizeOf (Json.obj es) = 1 + sizeOf es := by simp
      omega

theorem jsonWF_of_b {v : Json} (h : jsonWFb v = true) : JsonWF v :=
  jsonWF_of_b_aux (sizeOf v) v le_rfl h

theorem keyReorderEquivList_refl_of (xs : List Json)
    (h : ∀ x ∈ xs, KeyReorderEquiv x x) : KeyReorderEquivList xs xs := by
  induction xs with
  | nil => exact .nil
  | cons y ys ih =>
    exact .cons (h y (List.mem_cons_self y ys))
      (ih fun x hx => h x (List.mem_cons_of_mem y hx))

theorem keyReorderEquivEntries_refl_of (es : List (String × Json))
    (h : ∀ p ∈ es, KeyReorderEquiv p.2 p.2) : KeyReorderEquivEntries es es := by
  induction es with
  | nil => exact .nil
  | cons q qs ih =>
    exact .cons (h q (List.mem_cons_self q qs))
      (ih fun p hp => h p (List.mem_cons_of_mem q hp))

theorem keyReorderEquiv_refl_aux (n : Nat) :
    ∀ v : Json, sizeOf v ≤ n → KeyReorderEquiv v v := by
  induction n with
  | zero =>
    intro v hle
    exfalso
    cases v <;> simp_arith at hle
  | succ n ih =>
    intro v hle
    cases v with
    | null => exact .null
    | bool b => exact .bool b
    | num q => exact .num q
    | str s => exact .str s
    | arr xs =>
      refine .arr (keyReorderEquivList_refl_of xs ?_)
      intro x hx
      refine ih x ?_
      have h1 : sizeOf x < sizeOf xs := List.sizeOf_lt_of_mem hx
      have h2 : sizeOf (Json.arr xs) = 1 + sizeOf xs := by simp
      omega
    | obj es =>
      refine .obj (keyReorderEquivEntries_refl_of es ?_) (List.Perm.refl es)
      intro p hp
      refine ih p.2 ?_
      have h1 : sizeOf p.2 < sizeOf es := sizeOf_snd_lt_of_mem hp
      have h2 : sizeOf (Json.obj es) = 1 + sizeOf es := by simp
      omega

theorem keyReorderEquiv_refl (v : Json) : KeyReorderEquiv v v :=
  keyReorderEquiv_refl_aux (sizeOf v) v le_rfl

theorem c7v1_equiv_c7v2 : KeyReorderEquiv c7v1 c7v2 := by
  have hinner : KeyReorderEquiv
      (.obj [("y", .str "x"), ("x", .arr [.num 2, .num 3])])
      (.obj [("x", .arr [.num 2, .num 3]), ("y", .str "x")]) :=
    KeyReorderEquiv.obj
      (keyReorderEquivEntries_refl_of _ (fun p _ => keyReorderEquiv_refl p.2))
      (List.Perm.swap ("x", Json.arr [.num 2, .num 3]) ("y", Json.str "x") [])
  exact KeyReorderEquiv.obj
    (KeyReorderEquivEntries.cons (keyReorderEquiv_refl (.num 1))
      (KeyReorderEquivEntries.cons hinner KeyReorderEquivEntries.nil))
    (List.Perm.swap ("a", Json.obj [("x", .arr [.num 2, .num 3]), ("y", .str "x")])
      ("b", Json.num 1) [])

theorem pairingKvKey_trim (c : String) : pairingKvKey (strTrim c) = pairingKvKey c := by
  unfold pairingKvKey
  rw [strTrim_idem]

theorem handleConnect_consume (env : WorkerEnv) (c : String) (r : PairingRecord)
    (hne : 0 < strLength (strTrim c))
    (hst : kvGet env.kv (pairingKvKey c) = some (.pairing r)) :
    handleConnect env (some c) =
      ((200, .obj [("ok", .bool true), ("workerUrl", .str r.workerUrl),
                   ("runtimeKey", .str r.runtimeKey),
                   ("hmacSecret", .str r.hmacSecret)]),
       [KvOp.delete (pairingKvKey c)]) ∧
    handleConnect
      (WorkerEnv.mk (applyOps env.kv [KvOp.delete (pairingKvKey c)]) env.vars)
      (some c) =
      ((404, .obj [("error", .str "invalid_or_expired_code")]), []) := by
  have hkey : pairingKvKey (strTrim c) = pairingKvKey c := pairingKvKey_trim c
  constructor
  · unfold handleConnect
    simp only []
    rw [if_neg (by omega)]
    rw [hkey, hst]
  · unfold handleConnect
    simp only []
    rw [if_neg (by omega)]
    simp only [applyOps, List.foldl, applyOp]
    rw [hkey, kvGet_erase_same]

theorem sessionKvKey_inj {a b : String} (h : sessionKvKey a = sessionKvKey b) :
    a = b := by
  unfold sessionKvKey at h
  have h2 := congrArg String.data h
  simp only [String.data_append] at h2
  have h3 := List.append_cancel_left h2
  cases a
  cases b
  exact congrArg String.mk h3

theorem requireAdminSession_rotates (env : WorkerEnv) (req req2 : RequestModel)
    (requireCsrf : Bool) (nowMs : Int) (session : AdminSessionRecord)
    (freshSessionId freshCsrf : String)
    (hsid : 0 < strLength session.sessionId)
    (hcookie : getCookie req SESSION_COOKIE = session.sessionId)
    (hfound : kvGet env.kv (sessionKvKey session.sessionId) = some (.session session))
    (habs : nowMs ≤ session.expiresAt)
    (hidle : nowMs ≤ session.idleExpiresAt)
    (hcsrf : requireCsrf = false ∨
      (constantTimeEqual (getHeader req "x-pincer-csrf") session.csrfToken = true ∧
       0 < strLength (getHeader req "x-pincer-csrf")))
    (hrot : SESSION_ROTATE_INTERVAL_MS ≤ nowMs - session.rotatedAt)
    (hfresh : freshSessionId ≠ session.sessionId)
    (hcookie2 : getCookie req2 SESSION_COOKIE = session.sessionId) :
    requireAdminSession env req requireCsrf nowMs freshSessionId freshCsrf =
      (.ok (rotateSession env session nowMs freshSessionId freshCsrf).1.1
        (some (buildSessionCookie freshSessionId)),
       (rotateSession env session nowMs freshSessionId freshCsrf).2) ∧
    (rotateSession env session nowMs freshSessionId freshCsrf).1.1.sessionId =
      freshSessionId ∧
    kvGet (applyOps env.kv (rotateSession env session nowMs freshSessionId freshCsrf).2)
      (sessionKvKey session.sessionId) = none ∧
    requireAdminSession
      (WorkerEnv.mk
        (applyOps env.kv (rotateSession env session nowMs freshSessionId freshCsrf).2)
        env.vars)
      req2 requireCsrf nowMs freshSessionId freshCsrf =
      (.fail 401 "invalid_admin_session" (some buildExpiredSessionCookie), []) := by
  have hkeyne : sessionKvKey freshSessionId ≠ sessionKvKey session.sessionId :=
    fun he => hfresh (sessionKvKey_inj he)
  have hgone : kvGet
      (applyOps env.kv (rotateSession env session nowMs freshSessionId freshCsrf).2)
      (sessionKvKey session.sessionId) = none := by
    simp only [rotateSession, applyOps, List.foldl]
    rw [kvGet_put_other _ _ _ _ (Ne.symm hkeyne), kvGet_delete_same]
  have hcsrfF : (requireCsrf &&
      (decide (strLength (getHeader req "x-pincer-csrf") = 0) ||
       !constantTimeEqual (getHeader req "x-pincer-csrf") session.csrfToken)) =
      false := by
    rcases hcsrf with h | ⟨hct, hlen⟩
    · rw [h, Bool.false_and]
    · have hne0 : strLength (getHeader req "x-pincer-csrf") ≠ 0 := by omega
      simp [hct, hne0]
  refine ⟨?_, rfl, hgone, ?_⟩
  · unfold requireAdminSession
    simp only []
    rw [hcookie]
    rw [if_neg (by omega)]
    rw [hfound]
    simp only []
    rw [if_neg (by omega)]
    rw [if_neg (by simp [hcsrfF])]
    rw [if_pos hrot]
    rfl
  · unfold requireAdminSession
    simp only []
    rw [hcookie2]
    rw [if_neg (by omega)]
    rw [hgone]

theorem applyResolved_no_conflict_of_equiv (env : WorkerEnv)
    (pr : Option AdapterProposalRecord) (m cur : AdapterManifest)
    (nowIso eventId : String) (index : AdapterRegistryIndex) (act : ActiveEntry)
    (hr : readIndex env = some index)
    (ha : lookupActive index.active m.id = some act)
    (hrev : m.revision = act.revision)
    (hm : readManifest env m.id m.revision = some cur)
    (hequiv : KeyReorderEquiv (manifestToJson cur) (manifestToJson m))
    (w1 : JsonWF (manifestToJson cur)) (w2 : JsonWF (manifestToJson m)) :
    applyResolved env pr m nowIso eventId =
      applyCommit env pr m index
        (if act.enabled then "in_place_update" else "re_enable") nowIso eventId := by
  unfold applyResolved
  rw [hr]
  simp only []
  rw [ha]
  simp only []
  rw [if_neg (by rw [hrev]; exact lt_irrefl act.revision), if_pos hrev, hm]
  simp only []
  rw [if_neg ?_]
  simp only [ne_eq, not_not]
  exact stableStringify_eq_of_equiv hequiv w1 w2

end Pincer

/-- C5: with configured skew s and parsed integer timestamp ts, a request
    whose timestamp is exactly s seconds from now passes the timestamp
    check, while an offset of s + 1 seconds or more fails
    verifySignedRequest with stale_timestamp, which the runtime
    authenticator surfaces as a 401. -/
theorem C5_timestamp_skew_boundary :
    (∀ (sha256Hex : String → String) (hmacSha256Hex : String → String → String)
       (o : Pincer.VerifyRequestOptions) (ts : Int),
       Pincer.parseIntModel o.timestamp = some ts → o.secret ≠ "" →
       |Int.fdiv o.nowMs 1000 - ts| = o.skewSeconds →
       Pincer.verifySignedRequest sha256Hex hmacSha256Hex o ≠
         .fail .invalid_timestamp ∧
       Pincer.verifySignedRequest sha256Hex hmacSha256Hex o ≠
         .fail .stale_timestamp) ∧
    (∀ (sha256Hex : String → String) (hmacSha256Hex : String → String → String)
       (o : Pincer.VerifyRequestOptions) (ts : Int),
       Pincer.parseIntModel o.timestamp = some ts → o.secret ≠ "" →
       o.skewSeconds + 1 ≤ |Int.fdiv o.nowMs 1000 - ts| →
       Pincer.verifySignedRequest sha256Hex hmacSha256Hex o = .fail .stale_timestamp) ∧
    (∀ (sha256Hex : String → String) (hmacSha256Hex : String → String → String)
       (req : Pincer.RequestModel) (env : Pincer.WorkerEnv) (rawBody path : String)
       (nowMs : Int) (keyId keySecret : String) (runtime : Pincer.RuntimeKeyRecord)
       (hmacSecret : String) (ts : Int),
       Pincer.parseBearer (Pincer.getHeader req "authorization") = some (keyId, keySecret) →
       Pincer.getRuntimeRecord env = some runtime →
       keyId = runtime.id →
       Pincer.constantTimeEqual (sha256Hex keySecret) runtime.keyHash = true →
       Pincer.resolveSecretValue env runtime.hmacSecretBinding = some hmacSecret →
       hmacSecret ≠ "" →
       Pincer.parseIntModel (Pincer.getHeader req "x-pincer-timestamp") = some ts →
       (if runtime.skewSeconds = 0 then 60 else runtime.skewSeconds) + 1 ≤
         |Int.fdiv nowMs 1000 - ts| →
       Pincer.authenticateRuntimeRequest sha256Hex hmacSha256Hex req env rawBody path nowMs =
         some (.fail "stale_timestamp" 401)) :=
  ⟨fun a b o ts h1 h2 h3 => Pincer.verify_ts_exact_pass a b o ts h1 h2 h3,
   fun a b o ts h1 h2 h3 => Pincer.verify_ts_stale a b o ts h1 h2 h3,
   fun a b req env rawBody path nowMs keyId keySecret runtime hmacSecret ts
       h1 h2 h3 h4 h5 h6 h7 h8 =>
     Pincer.auth_stale_401 a b req env rawBody path nowMs keyId keySecret runtime
       hmacSecret ts h1 h2 h3 h4 h5 h6 h7 h8⟩

/-- C5 witness: at skew 60 and offset 61 seconds the pipeline returns the
    stale_timestamp failure with status 401. -/
theorem C5_timestamp_skew_boundary_witness :
    Pincer.authenticateRuntimeRequest (fun _ => "h") (fun _ _ => "sig")
      Pincer.c5Req Pincer.c5Env "" "/v1/adapters" 161000 =
      some (.fail "stale_timestamp" 401) :=
  C5_timestamp_skew_boundary.2.2 (fun _ => "h") (fun _ _ => "sig")
    Pincer.c5Req Pincer.c5Env "" "/v1/adapters" 161000 "rk_1" "secretpart"
    Pincer.c5Runtime "topsecret" 100 (by decide) rfl rfl (by decide) rfl
    (by decide) (by decide) (by decide)

/-- C10: constantTimeEqual decides exact string equality: it returns true
    if and only if the two strings are identical, and in particular it
    returns false whenever the UTF-8 encodings of the two strings have
    different lengths. -/
theorem C10_constantTimeEqual_decides_equality :
    (∀ a b : String, Pincer.constantTimeEqual a b = true ↔ a = b) ∧
    (∀ a b : String,
      (Pincer.utf8Encode a.data).length ≠ (Pincer.utf8Encode b.data).length →
      Pincer.constantTimeEqual a b = false) :=
  ⟨Pincer.constantTimeEqual_iff, Pincer.constantTimeEqual_false_of_length_ne⟩

/-- C10 witness: the equivalence evaluated at concrete strings. -/
theorem C10_constantTimeEqual_decides_equality_witness :
    Pincer.constantTimeEqual "abc" "abc" = true ∧
    Pincer.constantTimeEqual "ab" "abc" = false :=
  ⟨(C10_constantTimeEqual_decides_equality.1 "abc" "abc").mpr rfl,
   C10_constantTimeEqual_decides_equality.2 "ab" "abc" (by decide)⟩

/-- C4: for every manifest value accepted by validateAdapterManifest, each
    action of the validated manifest has its auth secret binding listed in
    requiredSecrets, its path resolves against the base URL to an https
    URL, and the lowercased host of that resolved URL is an allowed host. -/
theorem C4_validated_manifest_action_invariants :
    ∀ (raw : Option Pincer.Json) (m : Pincer.AdapterManifest),
      Pincer.validateAdapterManifest raw = .ok m →
      ∀ p ∈ m.actions,
        p.2.auth.secretBinding ∈ m.requiredSecrets ∧
        (Pincer.resolveUrl p.2.path m.baseUrl).scheme = "https" ∧
        Pincer.strToLower (Pincer.resolveUrl p.2.path m.baseUrl).host ∈ m.allowedHosts :=
  fun _ _ h => Pincer.validateAdapterManifest_ok_actions h

/-- C4 witness: the seed YouTube manifest is accepted and its single
    action satisfies all three invariants. -/
theorem C4_validated_manifest_action_invariants_witness :
    ("list_channel_videos", Pincer.seedAction).2.auth.secretBinding ∈
      Pincer.seedManifest.requiredSecrets ∧
    (Pincer.resolveUrl ("list_channel_videos", Pincer.seedAction).2.path
      Pincer.seedManifest.baseUrl).scheme = "https" ∧
    Pincer.strToLower (Pincer.resolveUrl ("list_channel_videos", Pincer.seedAction).2.path
      Pincer.seedManifest.baseUrl).host ∈ Pincer.seedManifest.allowedHosts :=
  C4_validated_manifest_action_invariants (some Pincer.seedManifestJson) Pincer.seedManifest
    (by rfl) ("list_channel_videos", Pincer.seedAction)
    (by simp [Pincer.seedManifest])

/-- C2 (amended): in every successful apply that consumes a proposal, the
    KV write trace is exactly: the manifest snapshot first, then the
    deletion of the consumed proposal record, then the registry index
    write, then the approval audit event; and if the stored index initially
    references only existing snapshots, then after every prefix of the
    trace the stored index still references only existing snapshots. -/
theorem C2_apply_write_order_and_index_safety
    (env : Pincer.WorkerEnv) (input : Pincer.ApplyInput) (nowIso eventId pid : String)
    (pr : Pincer.AdapterProposalRecord)
    (data : Pincer.ApplyManifestResult × Pincer.AdapterManifest)
    (ops : List Pincer.KvOp)
    (hpid : input.proposalId = some pid)
    (hne : 0 < Pincer.strLength (Pincer.strTrim pid))
    (hpr : Pincer.getAdapterProposal env pid = some (some pr))
    (h : Pincer.applyAdapterManifest env input nowIso eventId = some (.ok data, ops)) :
    (∃ newIndex auditEvent,
      ops = [Pincer.KvOp.put (Pincer.manifestKvKey data.2.id data.2.revision)
               (.manifest data.2),
             Pincer.KvOp.delete (Pincer.proposalKvKey pr.proposalId),
             Pincer.KvOp.put Pincer.REGISTRY_INDEX_KEY (.index newIndex),
             Pincer.KvOp.put (Pincer.proposalAuditKvKey nowIso eventId)
               (.audit auditEvent)]) ∧
    (Pincer.indexIntact env.kv →
      ∀ k, Pincer.indexIntact (Pincer.applyOps env.kv (ops.take k))) :=
  Pincer.apply_proposal_trace_and_intact env input nowIso eventId pid pr data ops
    hpid hne hpr h

/-- C2 counterexample: a concrete successful proposal-consuming apply whose
    write trace deletes the proposal record at position 1, before the
    registry index write at position 2, contrary to the spec's order of
    snapshot, then index, then proposal deletion. -/
theorem C2_delete_precedes_index_write :
    Pincer.applyAdapterManifest Pincer.c2Env (Pincer.ApplyInput.mk none (some "pr_1"))
      "T1" "ae_1" =
      some (.ok (Pincer.ApplyManifestResult.mk "youtube" 1 "new_install",
                 Pincer.seedManifest), Pincer.c2Ops) ∧
    List.findIdx (Pincer.isProposalDelete "pr_1") Pincer.c2Ops = 1 ∧
    List.findIdx Pincer.isIndexWrite Pincer.c2Ops = 2 :=
  ⟨rfl, rfl, rfl⟩

/-- C2 witness: the trace shape and prefix safety evaluated on the concrete
    proposal apply of the c2 scenario. -/
theorem C2_apply_write_order_and_index_safety_witness :
    (∃ newIndex auditEvent,
      Pincer.c2Ops = [Pincer.KvOp.put (Pincer.manifestKvKey "youtube" 1)
                        (.manifest Pincer.seedManifest),
                      Pincer.KvOp.delete (Pincer.proposalKvKey "pr_1"),
                      Pincer.KvOp.put Pincer.REGISTRY_INDEX_KEY (.index newIndex),
                      Pincer.KvOp.put (Pincer.proposalAuditKvKey "T1" "ae_1")
                        (.audit auditEvent)]) ∧
    (Pincer.indexIntact Pincer.c2Env.kv →
      ∀ k, Pincer.indexIntact (Pincer.applyOps Pincer.c2Env.kv (Pincer.c2Ops.take k))) :=
  C2_apply_write_order_and_index_safety Pincer.c2Env
    (Pincer.ApplyInput.mk none (some "pr_1")) "T1" "ae_1" "pr_1" Pincer.c2Proposal
    (Pincer.ApplyManifestResult.mk "youtube" 1 "new_install", Pincer.seedManifest)
    Pincer.c2Ops rfl (by decide) rfl rfl

/-- C1: the apply operation does not use the section 4.2 vault resolver for
    its required-secrets check: it reads env bindings only
    (readSecretBinding). On an environment whose vault stores a plaintext
    for YOUTUBE_API_KEY with no same-named env binding, the vault resolver
    of section 4.2 resolves the binding to a non-empty value, yet applying
    the seed manifest fails with missing_required_secrets 400 listing that
    binding. -/
theorem C1_apply_reads_env_not_vault :
    Pincer.resolveSecretValue Pincer.c1Env "YOUTUBE_API_KEY" = some "vault-api-key" ∧
    Pincer.applyAdapterManifest Pincer.c1Env
      (Pincer.ApplyInput.mk (some Pincer.seedManifestJson) none) "T1" "ae_1" =
      some (.fail (Pincer.RegistryOperationError.mk "missing_required_secrets" 400
        none (some ["YOUTUBE_API_KEY"])), []) :=
  ⟨rfl, rfl⟩

/-- C3 (amended): the apply operation does not require exactly one of
    proposalId and manifestRaw. When a proposalId that trims to a non-empty
    string is supplied, the manifest argument is never consulted, so a call
    with both present proceeds as a proposal apply; only a call with
    neither present is rejected, with invalid_manifest and HTTP 400. -/
theorem C3_apply_input_selection
    : (∀ (env : Pincer.WorkerEnv) (pid : String) (raw raw2 : Option Pincer.Json)
         (nowIso eventId : String),
         0 < Pincer.strLength (Pincer.strTrim pid) →
         Pincer.applyAdapterManifest env (Pincer.ApplyInput.mk raw (some pid))
           nowIso eventId =
         Pincer.applyAdapterManifest env (Pincer.ApplyInput.mk raw2 (some pid))
           nowIso eventId) ∧
      (∀ (env : Pincer.WorkerEnv) (nowIso eventId : String),
         Pincer.applyAdapterManifest env (Pincer.ApplyInput.mk none none)
           nowIso eventId =
         some (.fail (Pincer.RegistryOperationError.mk "invalid_manifest" 400
           (some ["manifest: must be a JSON object"]) none), [])) :=
  ⟨fun env pid raw raw2 nowIso eventId hne =>
     Pincer.apply_proposal_ignores_manifestRaw env pid raw raw2 nowIso eventId hne,
   fun env nowIso eventId =>
     Pincer.apply_neither_invalid_manifest env nowIso eventId⟩

/-- C3 counterexample: a call supplying both a non-empty proposalId and a
    manifest is not rejected: it succeeds as a normal proposal apply,
    ignoring the supplied manifest. -/
theorem C3_both_supplied_succeeds :
    Pincer.applyAdapterManifest Pincer.c2Env
      (Pincer.ApplyInput.mk (some (.str "ignored")) (some "pr_1")) "T1" "ae_1" =
      some (.ok (Pincer.ApplyManifestResult.mk "youtube" 1 "new_install",
                 Pincer.seedManifest), Pincer.c2Ops) :=
  rfl

/-- C3 witness: manifest-independence and the neither-present rejection
    evaluated at concrete inputs. -/
theorem C3_apply_input_selection_witness :
    (Pincer.applyAdapterManifest Pincer.c2Env
       (Pincer.ApplyInput.mk (some (.str "ignored")) (some "pr_1")) "T1" "ae_1" =
     Pincer.applyAdapterManifest Pincer.c2Env
       (Pincer.ApplyInput.mk none (some "pr_1")) "T1" "ae_1") ∧
    (Pincer.applyAdapterManifest Pincer.c2Env
       (Pincer.ApplyInput.mk none none) "T1" "ae_1" =
     some (.fail (Pincer.RegistryOperationError.mk "invalid_manifest" 400
       (some ["manifest: must be a JSON object"]) none), [])) :=
  ⟨C3_apply_input_selection.1 Pincer.c2Env "pr_1" (some (.str "ignored")) none
     "T1" "ae_1" (by decide),
   C3_apply_input_selection.2 Pincer.c2Env "T1" "ae_1"⟩

/-- C7: stableStringify is invariant under reordering of object keys at any
    nesting depth (with array order significant), for values whose objects
    hold duplicate-free keys; consequently the apply operation's
    revision_conflict check lets a re-applied manifest whose canonical JSON
    matches the stored snapshot up to key order proceed to the commit step
    instead of failing with revision_conflict. -/
theorem C7_stableStringify_key_order_invariance
    : (∀ v₁ v₂ : Pincer.Json, Pincer.KeyReorderEquiv v₁ v₂ →
         Pincer.JsonWF v₁ → Pincer.JsonWF v₂ →
         Pincer.stableStringify v₁ = Pincer.stableStringify v₂) ∧
      (∀ (env : Pincer.WorkerEnv) (pr : Option Pincer.AdapterProposalRecord)
         (m cur : Pincer.AdapterManifest) (nowIso eventId : String)
         (index : Pincer.AdapterRegistryIndex) (act : Pincer.ActiveEntry),
         Pincer.readIndex env = some index →
         Pincer.lookupActive index.active m.id = some act →
         m.revision = act.revision →
         Pincer.readManifest env m.id m.revision = some cur →
         Pincer.KeyReorderEquiv (Pincer.manifestToJson cur) (Pincer.manifestToJson m) →
         Pincer.JsonWF (Pincer.manifestToJson cur) →
         Pincer.JsonWF (Pincer.manifestToJson m) →
         Pincer.applyResolved env pr m nowIso eventId =
           Pincer.applyCommit env pr m index
             (if act.enabled then "in_place_update" else "re_enable") nowIso eventId) :=
  ⟨fun v₁ v₂ h w₁ w₂ => Pincer.stableStringify_eq_of_equiv h w₁ w₂,
   fun env pr m cur nowIso eventId index act hr ha hrev hm hequiv w1 w2 =>
     Pincer.applyResolved_no_conflict_of_equiv env pr m cur nowIso eventId index act
       hr ha hrev hm hequiv w1 w2⟩

/-- C7 witness: two concrete nested objects differing only in key order
    stringify identically, and a concrete re-apply of the stored manifest
    proceeds to the in_place_update commit. -/
theorem C7_stableStringify_key_order_invariance_witness :
    Pincer.stableStringify Pincer.c7v1 = Pincer.stableStringify Pincer.c7v2 ∧
    Pincer.applyResolved Pincer.c7Env none Pincer.seedManifest "T1" "ae_1" =
      Pincer.applyCommit Pincer.c7Env none Pincer.seedManifest Pincer.c7Index
        "in_place_update" "T1" "ae_1" :=
  ⟨C7_stableStringify_key_order_invariance.1 Pincer.c7v1 Pincer.c7v2
     Pincer.c7v1_equiv_c7v2 (Pincer.jsonWF_of_b rfl) (Pincer.jsonWF_of_b rfl),
   C7_stableStringify_key_order_invariance.2 Pincer.c7Env none Pincer.seedManifest
     Pincer.seedManifest "T1" "ae_1" Pincer.c7Index Pincer.c7Active rfl rfl rfl rfl
     (Pincer.keyReorderEquiv_refl (Pincer.manifestToJson Pincer.seedManifest))
     (Pincer.jsonWF_of_b rfl) (Pincer.jsonWF_of_b rfl)⟩

/-- C8: pairing-code consumption is at-most-once: when a pairing record is
    stored under the trimmed, uppercased code, the first connect request
    presenting the code returns 200 with the stored workerUrl, runtimeKey
    and hmacSecret triple and deletes the KV record, and a subsequent
    connect request presenting the same code against the resulting store
    returns 404 with error invalid_or_expired_code. -/
theorem C8_pairing_code_consumed_once
    (env : Pincer.WorkerEnv) (c : String) (r : Pincer.PairingRecord)
    (hne : 0 < Pincer.strLength (Pincer.strTrim c))
    (hst : Pincer.kvGet env.kv (Pincer.pairingKvKey c) = some (.pairing r)) :
    Pincer.handleConnect env (some c) =
      ((200, .obj [("ok", .bool true), ("workerUrl", .str r.workerUrl),
                   ("runtimeKey", .str r.runtimeKey),
                   ("hmacSecret", .str r.hmacSecret)]),
       [Pincer.KvOp.delete (Pincer.pairingKvKey c)]) ∧
    Pincer.handleConnect
      (Pincer.WorkerEnv.mk
        (Pincer.applyOps env.kv [Pincer.KvOp.delete (Pincer.pairingKvKey c)]) env.vars)
      (some c) =
      ((404, .obj [("error", .str "invalid_or_expired_code")]), []) :=
  Pincer.handleConnect_consume env c r hne hst

/-- C8 witness: a concrete code with surrounding blanks and lowercase
    letters consumes the stored record once and then fails with 404. -/
theorem C8_pairing_code_consumed_once_witness :
    Pincer.handleConnect Pincer.c8Env (some " abc12345 ") =
      ((200, .obj [("ok", .bool true),
                   ("workerUrl", .str "https://worker.example"),
                   ("runtimeKey", .str "rk_1.secret"),
                   ("hmacSecret", .str "hmac_secret")]),
       [Pincer.KvOp.delete (Pincer.pairingKvKey " abc12345 ")]) ∧
    Pincer.handleConnect
      (Pincer.WorkerEnv.mk
        (Pincer.applyOps Pincer.c8Env.kv
          [Pincer.KvOp.delete (Pincer.pairingKvKey " abc12345 ")]) Pincer.c8Env.vars)
      (some " abc12345 ") =
      ((404, .obj [("error", .str "invalid_or_expired_code")]), []) :=
  C8_pairing_code_consumed_once Pincer.c8Env " abc12345 " Pincer.c8Pairing
    (by decide) rfl

/-- C9: for every admin session that passes validation (cookie present and
    naming a stored record, not past absolute or idle expiry, CSRF
    satisfied when required) at a time at least 15 minutes after rotatedAt,
    requireAdminSession returns ok with a Set-Cookie carrying the freshly
    generated session id (assumed distinct from the old id), the KV record
    of the old session id is deleted, and a later request presenting the
    old session id fails with 401 invalid_admin_session. -/
theorem C9_session_rotation_invalidates_old_id
    (env : Pincer.WorkerEnv) (req req2 : Pincer.RequestModel)
    (requireCsrf : Bool) (nowMs : Int) (session : Pincer.AdminSessionRecord)
    (freshSessionId freshCsrf : String)
    (hsid : 0 < Pincer.strLength session.sessionId)
    (hcookie : Pincer.getCookie req Pincer.SESSION_COOKIE = session.sessionId)
    (hfound : Pincer.kvGet env.kv (Pincer.sessionKvKey session.sessionId) =
      some (.session session))
    (habs : nowMs ≤ session.expiresAt)
    (hidle : nowMs ≤ session.idleExpiresAt)
    (hcsrf : requireCsrf = false ∨
      (Pincer.constantTimeEqual (Pincer.getHeader req "x-pincer-csrf")
         session.csrfToken = true ∧
       0 < Pincer.strLength (Pincer.getHeader req "x-pincer-csrf")))
    (hrot : Pincer.SESSION_ROTATE_INTERVAL_MS ≤ nowMs - session.rotatedAt)
    (hfresh : freshSessionId ≠ session.sessionId)
    (hcookie2 : Pincer.getCookie req2 Pincer.SESSION_COOKIE = session.sessionId) :
    Pincer.requireAdminSession env req requireCsrf nowMs freshSessionId freshCsrf =
      (.ok (Pincer.rotateSession env session nowMs freshSessionId freshCsrf).1.1
        (some (Pincer.buildSessionCookie freshSessionId)),
       (Pincer.rotateSession env session nowMs freshSessionId freshCsrf).2) ∧
    (Pincer.rotateSession env session nowMs freshSessionId freshCsrf).1.1.sessionId =
      freshSessionId ∧
    Pincer.kvGet
      (Pincer.applyOps env.kv
        (Pincer.rotateSession env session nowMs freshSessionId freshCsrf).2)
      (Pincer.sessionKvKey session.sessionId) = none ∧
    Pincer.requireAdminSession
      (Pincer.WorkerEnv.mk
        (Pincer.applyOps env.kv
          (Pincer.rotateSession env session nowMs freshSessionId freshCsrf).2)
        env.vars)
      req2 requireCsrf nowMs freshSessionId freshCsrf =
      (.fail 401 "invalid_admin_session" (some Pincer.buildExpiredSessionCookie), []) :=
  Pincer.requireAdminSession_rotates env req req2 requireCsrf nowMs session
    freshSessionId freshCsrf hsid hcookie hfound habs hidle hcsrf hrot hfresh hcookie2

/-- C9 witness: a concrete session rotated 15 minutes ago is rotated to a
    fresh id, the old record is deleted, and the old cookie then fails. -/
theorem C9_session_rotation_invalidates_old_id_witness :
    Pincer.requireAdminSession Pincer.c9Env Pincer.c9Req false 900000
      "sid_new_2" "csrf_new" =
      (.ok (Pincer.rotateSession Pincer.c9Env Pincer.c9Session 900000
              "sid_new_2" "csrf_new").1.1
        (some (Pincer.buildSessionCookie "sid_new_2")),
       (Pincer.rotateSession Pincer.c9Env Pincer.c9Session 900000
          "sid_new_2" "csrf_new").2) ∧
    (Pincer.rotateSession Pincer.c9Env Pincer.c9Session 900000
       "sid_new_2" "csrf_new").1.1.sessionId = "sid_new_2" ∧
    Pincer.kvGet
      (Pincer.applyOps Pincer.c9Env.kv
        (Pincer.rotateSession Pincer.c9Env Pincer.c9Session 900000
          "sid_new_2" "csrf_new").2)
      (Pincer.sessionKvKey "sid_old_1") = none ∧
    Pincer.requireAdminSession
      (Pincer.WorkerEnv.mk
        (Pincer.applyOps Pincer.c9Env.kv
          (Pincer.rotateSession Pincer.c9Env Pincer.c9Session 900000
            "sid_new_2" "csrf_new").2)
        Pincer.c9Env.vars)
      Pincer.c9Req false 900000 "sid_new_2" "csrf_new" =
      (.fail 401 "invalid_admin_session" (some Pincer.buildExpiredSessionCookie), []) :=
  C9_session_rotation_invalidates_old_id Pincer.c9Env Pincer.c9Req Pincer.c9Req
    false 900000 Pincer.c9Session "sid_new_2" "csrf_new" (by decide) rfl rfl
    (by decide) (by decide) (Or.inl rfl) (by decide) (by decide) rfl

/-- C6: for a fixed (keyId, adapter, action) and minute bucket
    (floor of nowMs / 60000 ms), starting from a zero counter the limiter
    admits each of the first ratePerMinute calls and rejects the
    (ratePerMinute + 1)-th with rate_limited; and a proxy request that
    passes every earlier guard and hits a rejecting limiter returns
    HTTP 429 with error rate_limited. -/
theorem C6_rate_limit_exact_and_proxy_429 :
    (∀ (counters : Pincer.RateCounters) (keyId adapter action : String)
       (limit nowMs : Int),
       counters (Pincer.rateCounterKey keyId adapter action
         (Int.fdiv nowMs Pincer.RATE_BUCKET_MS)) = 0 →
       0 < limit →
       (∀ k : Nat, (k : Int) < limit →
         (Pincer.enforceRateLimit
           (Pincer.enforceRateLimitN counters keyId adapter action limit nowMs k)
           keyId adapter action limit nowMs).1 = .ok) ∧
       (Pincer.enforceRateLimit
         (Pincer.enforceRateLimitN counters keyId adapter action limit nowMs
           limit.toNat)
         keyId adapter action limit nowMs).1 = .rate_limited) ∧
    (∀ (sha256Hex : String → String) (hmacSha256Hex : String → String → String)
       (fetchImpl : Pincer.UpstreamRequest → Pincer.UpstreamResponse)
       (env : Pincer.WorkerEnv) (counters : Pincer.RateCounters)
       (req : Pincer.RequestModel) (rawBody : String)
       (parsedBody : Option Pincer.Json) (adapter action : String) (nowMs : Int)
       (keyId : String) (adapterManifest : Pincer.AdapterManifest)
       (actionSpec : Pincer.AdapterManifestAction)
       (input : List (String × Pincer.Json)),
       Pincer.authenticateRuntimeRequest sha256Hex hmacSha256Hex req env rawBody
         ("/v1/adapter/" ++ adapter ++ "/" ++ action) nowMs = some (.ok keyId) →
       Pincer.getAdapterAction env adapter action =
         some (some (adapterManifest, actionSpec)) →
       Pincer.coerceInputPayload parsedBody = some input →
       Pincer.validateInputWithSchema input actionSpec.inputSchema = [] →
       (Pincer.strLength rawBody : Int) ≤ actionSpec.limits.maxBodyKb * 1024 →
       (Pincer.enforceRateLimit counters keyId adapter action
         actionSpec.limits.ratePerMinute nowMs).1 = .rate_limited →
       Pincer.proxyAdapterRequest sha256Hex hmacSha256Hex fetchImpl env counters req
         rawBody parsedBody adapter action nowMs =
         some ((429, .obj [("error", .str "rate_limited")]),
           (Pincer.enforceRateLimit counters keyId adapter action
             actionSpec.limits.ratePerMinute nowMs).2)) :=
  ⟨fun counters keyId adapter action limit nowMs h0 hpos =>
     ⟨fun k hk => Pincer.enforceRateLimit_admits counters keyId adapter action
        limit nowMs h0 hpos k hk,
      Pincer.enforceRateLimit_rejects counters keyId adapter action limit nowMs
        h0 hpos⟩,
   fun sha256Hex hmacSha256Hex fetchImpl env counters req rawBody parsedBody
       adapter action nowMs keyId adapterManifest actionSpec input
       hauth hact hinput hvalid hbody hrl =>
     Pincer.proxy_surfaces_rate_limited sha256Hex hmacSha256Hex fetchImpl env
       counters req rawBody parsedBody adapter action nowMs keyId adapterManifest
       actionSpec input hauth hact hinput hvalid hbody hrl⟩

set_option maxRecDepth 8192 in
/-- C6 witness: with limit 2 the first two calls pass and the third is
    rate_limited; and after 90 admitted calls the proxied youtube request
    returns 429 rate_limited. -/
theorem C6_rate_limit_exact_and_proxy_429_witness :
    (Pincer.enforceRateLimit
      (Pincer.enforceRateLimitN (fun _ => 0) "rk_1" "youtube" "list_channel_videos"
        2 100000 1)
      "rk_1" "youtube" "list_channel_videos" 2 100000).1 = .ok ∧
    (Pincer.enforceRateLimit
      (Pincer.enforceRateLimitN (fun _ => 0) "rk_1" "youtube" "list_channel_videos"
        2 100000 2)
      "rk_1" "youtube" "list_channel_videos" 2 100000).1 = .rate_limited ∧
    Pincer.proxyAdapterRequest (fun _ => "h") (fun _ _ => "sig")
      (fun _ => Pincer.c6Upstream) Pincer.c6Env
      (Pincer.enforceRateLimitN (fun _ => 0) "rk_1" "youtube" "list_channel_videos"
        90 100000 90)
      Pincer.c5Req "" (some Pincer.c6Body) "youtube" "list_channel_videos" 100000 =
      some ((429, .obj [("error", .str "rate_limited")]),
        (Pincer.enforceRateLimit
          (Pincer.enforceRateLimitN (fun _ => 0) "rk_1" "youtube"
            "list_channel_videos" 90 100000 90)
          "rk_1" "youtube" "list_channel_videos" 90 100000).2) :=
  ⟨(C6_rate_limit_exact_and_proxy_429.1 (fun _ => 0) "rk_1" "youtube"
      "list_channel_videos" 2 100000 rfl (by decide)).1 1 (by decide),
   (C6_rate_limit_exact_and_proxy_429.1 (fun _ => 0) "rk_1" "youtube"
      "list_channel_videos" 2 100000 rfl (by decide)).2,
   C6_rate_limit_exact_and_proxy_429.2 (fun _ => "h") (fun _ _ => "sig")
     (fun _ => Pincer.c6Upstream) Pincer.c6Env
     (Pincer.enforceRateLimitN (fun _ => 0) "rk_1" "youtube" "list_channel_videos"
       90 100000 90)
     Pincer.c5Req "" (some Pincer.c6Body) "youtube" "list_channel_videos" 100000
     "rk_1" Pincer.seedManifest Pincer.seedAction [("channelId", .str "abc")]
     rfl rfl rfl rfl (by decide) (by rfl)⟩
